import Mathlib

/-!
# Verification of the `oracle.omen` deterministic replay core

Shallow embedding, in Lean 4, of the parts of the `oracle.omen` Rust
crates that the specification's testable claims are about:

* `oracle_omen_core`: hashing (`hash.rs`), the event log (`event.rs`),
  the state container (`state.rs`) and the replay engine (`replay.rs`);
* `oracle_omen_plan`: the DAG and its topological order (`dag.rs`);
* `oracle_omen_runtime`: the scheduler (`scheduler.rs`);
* `oracle_omen_policy`: the evaluation engine (`engine.rs`);
* `oracle_omen_patches`: the patch store and apply engine
  (`store.rs`, `apply.rs`).

Machine integers (`u8`, `u32`, `u64`, `usize`) are embedded as `Nat`
with explicit `% 2^w` at the operations where Rust wraps; byte strings
are `List Nat` with each element intended `< 256`.  Fallible Rust
functions returning `Result` are embedded as `Except`; functions that
mutate through `&mut` are embedded by explicit state passing, returning
the updated value alongside the result.
-/

deriving instance DecidableEq for Except

namespace OracleOmen

/-! ## Bytes and 32-bit words -/

/-- Wrap-around of a `u32` value, as in Rust release-mode arithmetic. -/
def u32 (n : Nat) : Nat := n % 4294967296

/-- Rust `u32` wrapping addition. -/
def add32 (a b : Nat) : Nat := (a + b) % 4294967296

/-- Rust `u32` right rotation by `n` bits (`rotate_right`). -/
def rotr32 (x n : Nat) : Nat := ((x >>> n) ||| (x <<< (32 - n))) % 4294967296

/-- Word `i` of a word vector, `0` out of range (vectors are always long
enough at every use site). -/
def w (v : List Nat) (i : Nat) : Nat := v.getD i 0

/-! ## BLAKE3

The Rust code hashes with the `blake3` crate (`Hash::from_bytes` in
`hash.rs` calls `blake3::hash`).  The crate is an external dependency,
so the function is reproduced here from the published BLAKE3
specification: 32-bit words little-endian, 64-byte blocks, 1024-byte
chunks, the 7-round compression function, and the binary tree whose
left subtree holds the largest power-of-two number of chunks strictly
below the total. -/

/-- BLAKE3 initial chaining value (the SHA-256 IV words). -/
def blake3IV : List Nat :=
  [1779033703, 3144134277, 1013904242, 2773480762,
   1359893119, 2600822924, 528734635, 1541459225]

/-- Flag bit for the first block of a chunk. -/
def chunkStartFlag : Nat := 1

/-- Flag bit for the last block of a chunk. -/
def chunkEndFlag : Nat := 2

/-- Flag bit for a parent (tree-interior) compression. -/
def parentFlag : Nat := 4

/-- Flag bit for the root compression. -/
def rootFlag : Nat := 8

/-- The BLAKE3 quarter-round mixing function `g` acting on state
positions `a b c d` with message words `mx my`. -/
def gMix (v : List Nat) (a b c d mx my : Nat) : List Nat :=
  let va := add32 (add32 (w v a) (w v b)) mx
  let vd := rotr32 ((w v d) ^^^ va) 16
  let vc := add32 (w v c) vd
  let vb := rotr32 ((w v b) ^^^ vc) 12
  let va' := add32 (add32 va vb) my
  let vd' := rotr32 (vd ^^^ va') 8
  let vc' := add32 vc vd'
  let vb' := rotr32 (vb ^^^ vc') 7
  (((v.set a va').set b vb').set c vc').set d vd'

/-- One BLAKE3 round: four column mixes then four diagonal mixes. -/
def roundFn (v m : List Nat) : List Nat :=
  let v := gMix v 0 4 8 12 (w m 0) (w m 1)
  let v := gMix v 1 5 9 13 (w m 2) (w m 3)
  let v := gMix v 2 6 10 14 (w m 4) (w m 5)
  let v := gMix v 3 7 11 15 (w m 6) (w m 7)
  let v := gMix v 0 5 10 15 (w m 8) (w m 9)
  let v := gMix v 1 6 11 12 (w m 10) (w m 11)
  let v := gMix v 2 7 8 13 (w m 12) (w m 13)
  gMix v 3 4 9 14 (w m 14) (w m 15)

/-- The BLAKE3 message word permutation applied between rounds. -/
def permuteMsg (m : List Nat) : List Nat :=
  [2, 6, 3, 10, 7, 0, 4, 13, 1, 11, 12, 5, 9, 14, 15, 8].map (fun i => w m i)

/-- The BLAKE3 compression function; returns the 8-word output chaining
value (which is also the first 32 bytes of the extended output). -/
def compress (cv m : List Nat) (counter blockLen flags : Nat) : List Nat :=
  let v := cv.take 8 ++ blake3IV.take 4 ++
    [counter % 4294967296, (counter / 4294967296) % 4294967296, blockLen, flags]
  let v := roundFn v m
  let m := permuteMsg m
  let v := roundFn v m
  let m := permuteMsg m
  let v := roundFn v m
  let m := permuteMsg m
  let v := roundFn v m
  let m := permuteMsg m
  let v := roundFn v m
  let m := permuteMsg m
  let v := roundFn v m
  let m := permuteMsg m
  let v := roundFn v m
  (List.range 8).map (fun i => (w v i) ^^^ (w v (i + 8)))

/-- Little-endian 32-bit word `i` of a byte list (zero padded). -/
def leWord (bs : List Nat) (i : Nat) : Nat :=
  bs.getD (4 * i) 0 + 256 * bs.getD (4 * i + 1) 0 +
    65536 * bs.getD (4 * i + 2) 0 + 16777216 * bs.getD (4 * i + 3) 0

/-- The 16 message words of one (zero padded) 64-byte block. -/
def blockWords (bs : List Nat) : List Nat := (List.range 16).map (leWord bs)

/-- Serialize words to bytes, little-endian. -/
def wordsToBytes (ws : List Nat) : List Nat :=
  ws.bind (fun x => [x % 256, x / 256 % 256, x / 65536 % 256, x / 16777216 % 256])

/-- Split a chunk into 64-byte blocks; the empty chunk is one empty
block.  Structural recursion on fuel (each step consumes 64 bytes, so
`l.length` steps always suffice) keeps the definition
kernel-reducible. -/
def splitBlocksFuel : Nat → List Nat → List (List Nat)
  | 0, l => [l]
  | fuel + 1, l =>
    if l.length ≤ 64 then [l]
    else l.take 64 :: splitBlocksFuel fuel (l.drop 64)

/-- See `splitBlocksFuel`. -/
def splitBlocks (l : List Nat) : List (List Nat) := splitBlocksFuel l.length l

/-- Fold the blocks of one chunk through the compression function.
`counter` is the chunk index; `isRoot` marks the single-chunk case, in
which the final block carries the root flag. -/
def chunkFold (counter : Nat) (isRoot : Bool) : List Nat → Bool → List (List Nat) → List Nat
  | cv, _, [] => cv
  | cv, first, [b] =>
      compress cv (blockWords b) counter b.length
        ((if first then chunkStartFlag else 0) + chunkEndFlag +
          (if isRoot then rootFlag else 0))
  | cv, first, b :: rest =>
      chunkFold counter isRoot
        (compress cv (blockWords b) counter b.length
          (if first then chunkStartFlag else 0))
        false rest

/-- Chaining value of one chunk. -/
def chunkCV (counter : Nat) (isRoot : Bool) (chunk : List Nat) : List Nat :=
  chunkFold counter isRoot blake3IV true (splitBlocks chunk)

/-- Parent (tree-interior) chaining value over two child chaining
values. -/
def parentCV (l r : List Nat) (isRoot : Bool) : List Nat :=
  compress blake3IV (l ++ r) 0 64 (parentFlag + (if isRoot then rootFlag else 0))

/-- Split the input into 1024-byte chunks; empty input is one empty
chunk.  Fuel as in `splitBlocksFuel`. -/
def splitChunksFuel : Nat → List Nat → List (List Nat)
  | 0, l => [l]
  | fuel + 1, l =>
    if l.length ≤ 1024 then [l]
    else l.take 1024 :: splitChunksFuel fuel (l.drop 1024)

/-- See `splitChunksFuel`. -/
def splitChunks (l : List Nat) : List (List Nat) := splitChunksFuel l.length l

/-- Combine chunk chaining values along the BLAKE3 tree: the left
subtree takes the largest power-of-two number of chunks strictly less
than the total.  The recursion depth is below the chunk count, so
`cvs.length` fuel always suffices. -/
def combineCVsFuel : Nat → List (List Nat) → Bool → List Nat
  | 0, cvs, _ => cvs.headD blake3IV
  | fuel + 1, cvs, isRoot =>
    if cvs.length ≤ 1 then cvs.headD blake3IV
    else
      parentCV
        (combineCVsFuel fuel (cvs.take (2 ^ Nat.log 2 (cvs.length - 1))) false)
        (combineCVsFuel fuel (cvs.drop (2 ^ Nat.log 2 (cvs.length - 1))) false)
        isRoot

/-- See `combineCVsFuel`. -/
def combineCVs (cvs : List (List Nat)) (isRoot : Bool) : List Nat :=
  combineCVsFuel cvs.length cvs isRoot

/-- BLAKE3 hash (32-byte output) of a byte list. -/
def blake3 (input : List Nat) : List Nat :=
  match splitChunks input with
  | [c] => wordsToBytes (chunkCV 0 true c)
  | chunks =>
      wordsToBytes (combineCVs (chunks.enum.map (fun p => chunkCV p.1 false p.2)) true)

/-! ## UTF-8

Rust strings are UTF-8 byte sequences and `hash.rs` measures and slices
them by bytes, so the embedding carries an explicit encoder. -/

/-- UTF-8 encoding of one character. -/
def utf8EncodeCharNat (c : Char) : List Nat :=
  let n := c.toNat
  if n < 128 then [n]
  else if n < 2048 then [192 + n / 64, 128 + n % 64]
  else if n < 65536 then [224 + n / 4096, 128 + (n / 64) % 64, 128 + n % 64]
  else [240 + n / 262144, 128 + (n / 4096) % 64, 128 + (n / 64) % 64, 128 + n % 64]

/-- UTF-8 bytes of a string (Rust `str::as_bytes`). -/
def utf8Bytes (s : String) : List Nat := s.data.bind utf8EncodeCharNat

/-! ## `Hash` (`oracle_omen_core/src/hash.rs`) -/

/-- A 32-byte BLAKE3 content hash (`hash.rs`, `pub struct Hash([u8; 32])`). -/
structure Hash where
  bytes : List Nat
deriving DecidableEq, Repr, Inhabited

namespace Hash

/-- Rust `Hash::from_bytes` — BLAKE3 of the data. -/
def fromBytes (data : List Nat) : Hash := ⟨blake3 data⟩

/-- Rust `Hash::from_str` — hash the UTF-8 bytes of a string. -/
def fromStr (s : String) : Hash := fromBytes (utf8Bytes s)

/-- Rust `Hash::zero` — the all-zero sentinel hash. -/
def zero : Hash := ⟨List.replicate 32 0⟩

/-- Rust `Hash::is_zero`. -/
def isZero (h : Hash) : Bool := h.bytes.all (fun b => b == 0)

/-- Lowercase hex digit for a value `< 16` (`write!("{:02x}")`). -/
def hexDigitChar (n : Nat) : Char :=
  if n < 10 then Char.ofNat (48 + n) else Char.ofNat (87 + n)

/-- Rust `Hash::to_hex` — 64 lowercase hex characters, two per byte. -/
def toHex (h : Hash) : String :=
  String.mk (h.bytes.bind (fun b => [hexDigitChar (b / 16), hexDigitChar (b % 16)]))

end Hash

/-- Rust `HashError` (`error.rs`). -/
inductive HashError
  | InvalidFormat (msg : String)
  | ComputationFailed (msg : String)
deriving DecidableEq, Repr

/-- Rust `char::to_digit(16)` on a byte: hex digit value of `0-9`,
`a-f`, `A-F`. -/
def toDigit16 (c : Nat) : Option Nat :=
  if 48 ≤ c ∧ c ≤ 57 then some (c - 48)
  else if 97 ≤ c ∧ c ≤ 102 then some (c - 87)
  else if 65 ≤ c ∧ c ≤ 70 then some (c - 55)
  else none

/-- Digit-accumulation loop of `u8::from_str_radix(_, 16)`: `checked_mul`
then `checked_add`, failing on a non-digit or on overflow past 255. -/
def parseDigits16 (acc : Nat) : List Nat → Option Nat
  | [] => some acc
  | c :: rest =>
    match toDigit16 c with
    | none => none
    | some d => if acc * 16 + d > 255 then none else parseDigits16 (acc * 16 + d) rest

/-- Rust `u8::from_str_radix(s, 16)` on the byte list of `s`: an
optional leading `+` (byte 43) is consumed as a sign; a lone `+` or an
empty string fails; `-` is not a legal sign for an unsigned type. -/
def u8FromStrRadix16 : List Nat → Option Nat
  | [] => none
  | [43] => none
  | 43 :: rest => parseDigits16 0 rest
  | bs => parseDigits16 0 bs

/-- Result of running a Rust expression that can panic: either the
value, or a panic.  Used for `Hash::from_hex`, whose string slicing
panics on some inputs. -/
inductive RustOutcome (α : Type)
  | ok (a : α)
  | panic (msg : String)
deriving DecidableEq, Repr

/-- Rust `str::is_char_boundary` at byte position `p` of the UTF-8
byte list: position 0, the end of the string, or a byte that is not a
continuation byte (`< 0x80` or `≥ 0xC0`); out-of-range positions are
not boundaries. -/
def isCharBoundary (bs : List Nat) (p : Nat) : Bool :=
  if p = 0 then true
  else
    match bs.get? p with
    | none => p == bs.length
    | some b => b < 128 || 192 ≤ b

/-- Specification of the pure two-byte-group parse at byte position
`i`: each group goes through `u8::from_str_radix(_, 16)`.  This is not
itself the Rust loop — `Hash.fromHexLoop` below models the loop with
its slicing panic — but the two coincide on all-ASCII inputs
(`fromHexLoop_eq_parseHexPairs`), where every slice boundary is a
character boundary.  The one-byte leftover case cannot be reached at
even length; it reports the same `InvalidFormat` error as a failed
pair. -/
def parseHexPairs : List Nat → Nat → Except HashError (List Nat)
  | [], _ => .ok []
  | [_], i => .error (.InvalidFormat ("Invalid hex at position " ++ toString i))
  | a :: b :: rest, i =>
    match u8FromStrRadix16 [a, b] with
    | none => .error (.InvalidFormat ("Invalid hex at position " ++ toString i))
    | some v => (parseHexPairs rest (i + 2)).map (fun vs => v :: vs)

namespace Hash

/-- The `for i in 0..32` loop of `Hash::from_hex`.  Iteration `i`
takes the string slice `&hex[i*2..i*2+2]`, which **panics** — as Rust
byte-indexed `str` slicing does — when either end of the range is not
a character boundary; otherwise the two bytes go through
`u8::from_str_radix(_, 16)`, a failure becoming `InvalidFormat` at
position `i*2`.  The first argument counts the remaining iterations,
the second is `i`. -/
def fromHexLoop (bs : List Nat) : Nat → Nat → RustOutcome (Except HashError (List Nat))
  | 0, _ => .ok (.ok [])
  | n + 1, i =>
    if isCharBoundary bs (2 * i) && isCharBoundary bs (2 * i + 2) then
      match u8FromStrRadix16 ((bs.drop (2 * i)).take 2) with
      | none =>
        .ok (.error (.InvalidFormat ("Invalid hex at position " ++ toString (2 * i))))
      | some v =>
        match fromHexLoop bs n (i + 1) with
        | .panic m => .panic m
        | .ok (.error e) => .ok (.error e)
        | .ok (.ok vs) => .ok (.ok (v :: vs))
    else .panic "byte index is not a char boundary"

/-- Rust `Hash::from_hex`: require exactly 64 bytes, then run the
32-iteration slicing loop.  The outcome is `panic` exactly when the
Rust function panics (a slice boundary inside a multi-byte
character). -/
def fromHex (hex : String) : RustOutcome (Except HashError Hash) :=
  let bs := utf8Bytes hex
  if bs.length ≠ 64 then
    .ok (.error (.InvalidFormat ("Expected 64 chars, got " ++ toString bs.length)))
  else
    match fromHexLoop bs 32 0 with
    | .panic m => .panic m
    | .ok (.error e) => .ok (.error e)
    | .ok (.ok vs) => .ok (.ok ⟨vs⟩)

end Hash

/-! ## Canonical JSON (`serde_utils.rs`)

`CanonicalJson::serialize_bytes` is `serde_json::to_vec` over types whose
maps are `BTreeMap`s (iterated in ascending key order), so the canonical
encoding is compact JSON with struct fields in declaration order, map
keys ascending, enums externally tagged (unit variants as bare strings,
data variants as one-key objects), `Option` as the value or `null`, and
`Hash` as its 64-character lowercase hex string (its manual `Serialize`
impl). -/

/-- JSON values as `serde_json` renders them.  The `raw` constructor
carries a pre-rendered token; it is used only for `f64` state values,
whose decimal rendering this embedding does not model bit-for-bit
(the specification bans floats from every hashed path). -/
inductive Json
  | null
  | bool (b : Bool)
  | num (n : Int)
  | str (s : String)
  | arr (xs : List Json)
  | obj (fields : List (String × Json))
  | raw (token : String)
deriving Inhabited

/-- Rust `serde_json` escaping of one character inside a JSON string:
quote and backslash escaped, control characters as `\b \t \n \f \r`
or `\u00xx`. -/
def escapeJsonChar (c : Char) : String :=
  if c = Char.ofNat 34 then "\\\""
  else if c = Char.ofNat 92 then "\\\\"
  else if c.toNat ≥ 32 then String.singleton c
  else if c.toNat = 8 then "\\b"
  else if c.toNat = 9 then "\\t"
  else if c.toNat = 10 then "\\n"
  else if c.toNat = 12 then "\\f"
  else if c.toNat = 13 then "\\r"
  else "\\u00" ++ String.mk [Hash.hexDigitChar (c.toNat / 16), Hash.hexDigitChar (c.toNat % 16)]

/-- Rust `serde_json` string escaping. -/
def escapeJson (s : String) : String := String.join (s.data.map escapeJsonChar)

mutual

/-- Compact rendering of a JSON value, as `serde_json::to_string`. -/
def Json.render : Json → String
  | .null => "null"
  | .bool true => "true"
  | .bool false => "false"
  | .num n => toString n
  | .str s => "\"" ++ escapeJson s ++ "\""
  | .arr xs => "[" ++ Json.renderArr xs ++ "]"
  | .obj fs => "\x7b" ++ Json.renderObj fs ++ "\x7d"
  | .raw t => t

/-- Comma-separated rendering of array elements. -/
def Json.renderArr : List Json → String
  | [] => ""
  | [x] => Json.render x
  | x :: rest => Json.render x ++ "," ++ Json.renderArr rest

/-- Comma-separated rendering of object fields. -/
def Json.renderObj : List (String × Json) → String
  | [] => ""
  | [f] => "\"" ++ escapeJson f.1 ++ "\":" ++ Json.render f.2
  | f :: rest =>
    "\"" ++ escapeJson f.1 ++ "\":" ++ Json.render f.2 ++ "," ++ Json.renderObj rest

end

/-- Rust `Hash::from_canonical` applied to a value whose serde image is `j`:
BLAKE3 over the canonical JSON bytes. -/
def Hash.fromCanonicalJson (j : Json) : Hash := Hash.fromBytes (utf8Bytes j.render)

/-! ## Sorted association maps (`BTreeMap` / `BTreeSet`)

Rust `BTreeMap`s are embedded as association lists kept in strictly
ascending key order by insertion, matching `BTreeMap` iteration order. -/

/-- Rust `BTreeMap::insert` for an association list sorted by `lt`
(replaces an existing binding, keeps order). -/
def assocInsert {κ α : Type} (lt : κ → κ → Bool) [DecidableEq κ] (k : κ) (v : α) :
    List (κ × α) → List (κ × α)
  | [] => [(k, v)]
  | (k', v') :: rest =>
    if lt k k' then (k, v) :: (k', v') :: rest
    else if k = k' then (k, v) :: rest
    else (k', v') :: assocInsert lt k v rest

/-- Rust `BTreeMap::get`. -/
def assocGet? {κ α : Type} [DecidableEq κ] (k : κ) : List (κ × α) → Option α
  | [] => none
  | (k', v) :: rest => if k = k' then some v else assocGet? k rest

/-- Rust `BTreeMap::contains_key`. -/
def assocContains {κ α : Type} [DecidableEq κ] (k : κ) (m : List (κ × α)) : Bool :=
  (assocGet? k m).isSome

/-- Rust `BTreeMap::remove` (drops every binding of the key; a sorted map
has at most one). -/
def assocRemove {κ α : Type} [DecidableEq κ] (k : κ) : List (κ × α) → List (κ × α)
  | [] => []
  | (k', v) :: rest => if k = k' then assocRemove k rest else (k', v) :: assocRemove k rest

/-- Lexicographic comparison of character lists.  Comparing Unicode
scalar values character-wise coincides with Rust's byte-wise `str`
ordering, because UTF-8 preserves code-point order. -/
def charListLt : List Char → List Char → Bool
  | [], [] => false
  | [], _ :: _ => true
  | _ :: _, [] => false
  | a :: as, b :: bs =>
    if a.toNat < b.toNat then true
    else if b.toNat < a.toNat then false
    else charListLt as bs

/-- String comparison used for `BTreeMap<String, _>` ordering. -/
def strLt (a b : String) : Bool := charListLt a.data b.data

/-- Rust `str::ends_with('*')`. -/
def endsWithStar (c : String) : Bool := c.data.getLast? == some '*'

/-- Rust `str::starts_with(p)`: `p` is a prefix (character prefix and
byte prefix coincide on valid UTF-8). -/
def startsWithStr (s p : String) : Bool := p.data.isPrefixOf s.data

/-- Rust `BTreeSet<String>::insert`: sorted list of distinct strings. -/
def strSetInsert (k : String) : List String → List String
  | [] => [k]
  | k' :: rest =>
    if strLt k k' then k :: k' :: rest
    else if k = k' then k' :: rest
    else k' :: strSetInsert k rest

/-! ## State container (`oracle_omen_core/src/state.rs`) -/

/-- Alias so that constructor names below can shadow the builtin
type names without ambiguity. -/
abbrev RustString := String

/-- Alias, see `RustString`. -/
abbrev RustBool := Bool

/-- Alias, see `RustString`. -/
abbrev RustHash := Hash

/-- Rust `StateValue` (`state.rs`).  `F64` carries its rendered JSON token
abstractly; floats never reach a hashed path in the claims below. -/
inductive StateValue
  | String (s : RustString)
  | Bool (b : RustBool)
  | U64 (n : Nat)
  | I64 (n : Int)
  | F64 (token : RustString)
  | Bytes (bs : List Nat)
  | Hash (h : RustHash)
  | None
deriving DecidableEq, Repr, Inhabited

/-- Rust `StateData` (`state.rs`): single value, map of values, or list. -/
inductive StateData
  | Value (v : StateValue)
  | Map (m : List (RustString × StateValue))
  | Vec (vs : List StateValue)
deriving DecidableEq, Repr, Inhabited

/-- serde image of a `StateValue` (externally tagged enum). -/
def StateValue.toJson : StateValue → Json
  | .String s => .obj [("String", .str s)]
  | .Bool b => .obj [("Bool", .bool b)]
  | .U64 n => .obj [("U64", .num n)]
  | .I64 n => .obj [("I64", .num n)]
  | .F64 tok => .obj [("F64", .raw tok)]
  | .Bytes bs => .obj [("Bytes", .arr (bs.map (fun b => .num b)))]
  | .Hash h => .obj [("Hash", .str h.toHex)]
  | .None => .str "None"

/-- serde image of a `StateData`. -/
def StateData.toJson : StateData → Json
  | .Value v => .obj [("Value", v.toJson)]
  | .Map m => .obj [("Map", .obj (m.map (fun kv => (kv.1, kv.2.toJson))))]
  | .Vec vs => .obj [("Vec", .arr (vs.map StateValue.toJson))]

/-- serde image of the state's `BTreeMap<String, StateData>`. -/
def stateMapToJson (m : List (String × StateData)) : Json :=
  .obj (m.map (fun kv => (kv.1, kv.2.toJson)))

/-- Rust `Hash::from_canonical(&self.data)` as used by `AgentState::rehash`. -/
def hashCanonicalStateMap (m : List (String × StateData)) : Hash :=
  Hash.fromCanonicalJson (stateMapToJson m)

/-- Rust `AgentState` (`state.rs`): versioned map of domains with a cached
state hash. -/
structure AgentState where
  version : Nat
  data : List (String × StateData)
  state_hash : Hash
deriving DecidableEq, Repr, Inhabited

namespace AgentState

/-- Rust `AgentState::initial`: version 0, empty data, zero hash sentinel. -/
def initial : AgentState := ⟨0, [], Hash.zero⟩

/-- Rust `AgentState::rehash` — recompute the cached canonical hash. -/
def rehash (s : AgentState) : AgentState :=
  { s with state_hash := hashCanonicalStateMap s.data }

/-- Rust `AgentState::with_run_id`: start from `initial`, insert the
`system` domain directly, rehash (the version stays 0). -/
def with_run_id (run_id : Nat) : AgentState :=
  rehash { initial with
    data := assocInsert strLt "system" (.Value (.U64 run_id)) initial.data }

/-- Rust `AgentState::get`. -/
def get (s : AgentState) (domain : String) : Option StateData :=
  assocGet? domain s.data

/-- Rust `AgentState::set`: insert or replace the domain, bump the version,
rehash. -/
def set (s : AgentState) (domain : String) (d : StateData) : AgentState :=
  rehash { s with
    data := assocInsert strLt domain d s.data
    version := s.version + 1 }

/-- Rust `AgentState::remove`: drop the domain and, only when it existed,
bump the version and rehash; returns the removed value alongside the
new state. -/
def remove (s : AgentState) (domain : String) : AgentState × Option StateData :=
  match assocGet? domain s.data with
  | none => (s, none)
  | some v =>
    (rehash { s with
        data := assocRemove domain s.data
        version := s.version + 1 }, some v)

/-- Rust `AgentState::hash` — the cached hash. -/
def hash (s : AgentState) : Hash := s.state_hash

/-- Rust `AgentState::matches` — hash equality (`matches` is a reserved
token in Lean, hence the prime). -/
def matches' (s other : AgentState) : Bool := s.state_hash == other.state_hash

end AgentState

/-! ## Logical time and capabilities (`time.rs`, `capability.rs`) -/

/-- Rust `LogicalTime` (`time.rs`): injected `(run_id, sequence)`. -/
structure LogicalTime where
  run_id : Nat
  sequence : Nat
deriving DecidableEq, Repr, Inhabited

/-- serde image of a `LogicalTime`. -/
def LogicalTime.toJson (t : LogicalTime) : Json :=
  .obj [("run_id", .num t.run_id), ("sequence", .num t.sequence)]

/-- Rust `Capability` (`capability.rs`): a newtype over its colon-separated
string (serde serializes the inner string transparently). -/
structure Capability where
  name : String
deriving DecidableEq, Repr, Inhabited

/-- serde image of a `Capability` (newtype struct → inner value). -/
def Capability.toJson (c : Capability) : Json := .str c.name

/-! ## Events and the event log (`oracle_omen_core/src/event.rs`) -/

/-- Rust `EventId` (`event.rs`): run ID plus dense sequence number. -/
structure EventId where
  run_id : Nat
  sequence : Nat
deriving DecidableEq, Repr, Inhabited

namespace EventId

/-- Rust `EventId::new`. -/
def new (run_id sequence : Nat) : EventId := ⟨run_id, sequence⟩

/-- Rust `Display for EventId`: `E(run:seq)` — used in the
`ParentNotFound` error message. -/
def toString (id : EventId) : String :=
  "E(" ++ Nat.repr id.run_id ++ ":" ++ Nat.repr id.sequence ++ ")"

/-- The `Ord` derived on `EventId` is lexicographic on
`(run_id, sequence)`; this is the `BTreeMap<EventId, usize>` key
order. -/
def ltB (a b : EventId) : Bool :=
  a.run_id < b.run_id || (a.run_id == b.run_id && a.sequence < b.sequence)

/-- serde image of an `EventId`. -/
def toJson (id : EventId) : Json :=
  .obj [("run_id", .num id.run_id), ("sequence", .num id.sequence)]

end EventId

/-- Rust `EventKind` (`event.rs`). -/
inductive EventKind
  | AgentInit
  | StateTransition
  | ToolRequest
  | ToolResponse
  | CapabilityDenied
  | Observation
  | Decision
  | MemoryWrite
  | MemoryRead
  | PatchProposal
  | PatchApplied
  | PatchRejected
  | Error
  | Snapshot
  | Custom (s : RustString)
deriving DecidableEq, Repr, Inhabited

/-- serde image of an `EventKind` (externally tagged). -/
def EventKind.toJson : EventKind → Json
  | .AgentInit => .str "AgentInit"
  | .StateTransition => .str "StateTransition"
  | .ToolRequest => .str "ToolRequest"
  | .ToolResponse => .str "ToolResponse"
  | .CapabilityDenied => .str "CapabilityDenied"
  | .Observation => .str "Observation"
  | .Decision => .str "Decision"
  | .MemoryWrite => .str "MemoryWrite"
  | .MemoryRead => .str "MemoryRead"
  | .PatchProposal => .str "PatchProposal"
  | .PatchApplied => .str "PatchApplied"
  | .PatchRejected => .str "PatchRejected"
  | .Error => .str "Error"
  | .Snapshot => .str "Snapshot"
  | .Custom s => .obj [("Custom", .str s)]

/-- Rust `AgentInitPayload` (`event.rs`). -/
structure AgentInitPayload where
  agent_type : String
  agent_version : String
  config : List (String × String)
deriving DecidableEq, Repr, Inhabited

/-- Rust `StateTransitionPayload` (`event.rs`). -/
structure StateTransitionPayload where
  from_hash : Hash
  to_hash : Hash
  transition_type : String
deriving DecidableEq, Repr, Inhabited

/-- Rust `ToolRequestPayload` (`event.rs`). -/
structure ToolRequestPayload where
  tool_name : String
  tool_version : String
  request_hash : Hash
  capabilities : List Capability
  input : String
deriving DecidableEq, Repr, Inhabited

/-- Rust `ToolResponsePayload` (`event.rs`). -/
structure ToolResponsePayload where
  tool_name : String
  request_hash : Hash
  response_hash : Hash
  output : String
  success : Bool
  error : Option String
deriving DecidableEq, Repr, Inhabited

/-- Rust `duration_ms` field of `ToolResponsePayload`. -/
structure ToolResponsePayloadFull extends ToolResponsePayload where
  duration_ms : Nat
deriving DecidableEq, Repr, Inhabited

/-- Rust `CapabilityDeniedPayload` (`event.rs`). -/
structure CapabilityDeniedPayload where
  capability : Capability
  tool_name : String
  reason : String
deriving DecidableEq, Repr, Inhabited

/-- Rust `ObservationPayload` (`event.rs`). -/
structure ObservationPayload where
  obs_type : String
  data : List (String × String)
  source : String
deriving DecidableEq, Repr, Inhabited

/-- Rust `DecisionPayload` (`event.rs`). -/
structure DecisionPayload where
  decision_type : String
  data : List (String × String)
  reasoning : Option String
deriving DecidableEq, Repr, Inhabited

/-- Rust `MemoryPayload` (`event.rs`). -/
structure MemoryPayload where
  operation : String
  key : String
  value_hash : Option Hash
  causal_event : EventId
deriving DecidableEq, Repr, Inhabited

/-- Rust `PatchPayload` (`event.rs`). -/
structure PatchPayload where
  patch_type : String
  target : String
  patch_hash : Hash
  reasoning : String
deriving DecidableEq, Repr, Inhabited

/-- Rust `PatchRejectedPayload` (`event.rs`). -/
structure PatchRejectedPayload where
  patch_hash : Hash
  reason : String
  stage : String
deriving DecidableEq, Repr, Inhabited

/-- Rust `ErrorPayload` (`event.rs`). -/
structure ErrorPayload where
  error_type : String
  message : String
  component : String
  recoverable : Bool
deriving DecidableEq, Repr, Inhabited

/-- Rust `SnapshotPayload` (`event.rs`). -/
structure SnapshotPayload where
  snapshot_id : String
  at_sequence : Nat
  state_hash : Hash
  events_before : Nat
deriving DecidableEq, Repr, Inhabited

/-- Rust `EventPayload` (`event.rs`): tagged union, one variant per kind. -/
inductive EventPayload
  | AgentInit (p : AgentInitPayload)
  | StateTransition (p : StateTransitionPayload)
  | ToolRequest (p : ToolRequestPayload)
  | ToolResponse (p : ToolResponsePayloadFull)
  | CapabilityDenied (p : CapabilityDeniedPayload)
  | Observation (p : ObservationPayload)
  | Decision (p : DecisionPayload)
  | MemoryWrite (p : MemoryPayload)
  | MemoryRead (p : MemoryPayload)
  | PatchProposal (p : PatchPayload)
  | PatchApplied (p : PatchPayload)
  | PatchRejected (p : PatchRejectedPayload)
  | Error (p : ErrorPayload)
  | Snapshot (p : SnapshotPayload)
  | Raw (m : List (RustString × RustString))
deriving DecidableEq, Repr, Inhabited

/-- serde image of a `BTreeMap<String, String>`. -/
def stringMapToJson (m : List (String × String)) : Json :=
  .obj (m.map (fun kv => (kv.1, .str kv.2)))

/-- serde image of an `Option<T>` given the image of `T`. -/
def optionToJson {α : Type} (f : α → Json) : Option α → Json
  | none => .null
  | some x => f x

/-- serde image of an `EventPayload` (externally tagged; payload
structs serialize with fields in declaration order). -/
def EventPayload.toJson : EventPayload → Json
  | .AgentInit p => .obj [("AgentInit", .obj
      [("agent_type", .str p.agent_type), ("agent_version", .str p.agent_version),
       ("config", stringMapToJson p.config)])]
  | .StateTransition p => .obj [("StateTransition", .obj
      [("from_hash", .str p.from_hash.toHex), ("to_hash", .str p.to_hash.toHex),
       ("transition_type", .str p.transition_type)])]
  | .ToolRequest p => .obj [("ToolRequest", .obj
      [("tool_name", .str p.tool_name), ("tool_version", .str p.tool_version),
       ("request_hash", .str p.request_hash.toHex),
       ("capabilities", .arr (p.capabilities.map Capability.toJson)),
       ("input", .str p.input)])]
  | .ToolResponse p => .obj [("ToolResponse", .obj
      [("tool_name", .str p.tool_name), ("request_hash", .str p.request_hash.toHex),
       ("response_hash", .str p.response_hash.toHex), ("output", .str p.output),
       ("success", .bool p.success), ("error", optionToJson Json.str p.error),
       ("duration_ms", .num p.duration_ms)])]
  | .CapabilityDenied p => .obj [("CapabilityDenied", .obj
      [("capability", p.capability.toJson), ("tool_name", .str p.tool_name),
       ("reason", .str p.reason)])]
  | .Observation p => .obj [("Observation", .obj
      [("obs_type", .str p.obs_type), ("data", stringMapToJson p.data),
       ("source", .str p.source)])]
  | .Decision p => .obj [("Decision", .obj
      [("decision_type", .str p.decision_type), ("data", stringMapToJson p.data),
       ("reasoning", optionToJson Json.str p.reasoning)])]
  | .MemoryWrite p => .obj [("MemoryWrite", .obj
      [("operation", .str p.operation), ("key", .str p.key),
       ("value_hash", optionToJson (fun h => .str h.toHex) p.value_hash),
       ("causal_event", p.causal_event.toJson)])]
  | .MemoryRead p => .obj [("MemoryRead", .obj
      [("operation", .str p.operation), ("key", .str p.key),
       ("value_hash", optionToJson (fun h => .str h.toHex) p.value_hash),
       ("causal_event", p.causal_event.toJson)])]
  | .PatchProposal p => .obj [("PatchProposal", .obj
      [("patch_type", .str p.patch_type), ("target", .str p.target),
       ("patch_hash", .str p.patch_hash.toHex), ("reasoning", .str p.reasoning)])]
  | .PatchApplied p => .obj [("PatchApplied", .obj
      [("patch_type", .str p.patch_type), ("target", .str p.target),
       ("patch_hash", .str p.patch_hash.toHex), ("reasoning", .str p.reasoning)])]
  | .PatchRejected p => .obj [("PatchRejected", .obj
      [("patch_hash", .str p.patch_hash.toHex), ("reason", .str p.reason),
       ("stage", .str p.stage)])]
  | .Error p => .obj [("Error", .obj
      [("error_type", .str p.error_type), ("message", .str p.message),
       ("component", .str p.component), ("recoverable", .bool p.recoverable)])]
  | .Snapshot p => .obj [("Snapshot", .obj
      [("snapshot_id", .str p.snapshot_id), ("at_sequence", .num p.at_sequence),
       ("state_hash", .str p.state_hash.toHex), ("events_before", .num p.events_before)])]
  | .Raw m => .obj [("Raw", stringMapToJson m)]

/-- Rust `EventPayload::hash` — `Hash::from_canonical(self)`. -/
def EventPayload.hash (p : EventPayload) : Hash :=
  Hash.fromCanonicalJson p.toJson

/-- Rust `Event` (`event.rs`): one immutable entry of the log. -/
structure Event where
  id : EventId
  parent_id : Option EventId
  kind : EventKind
  timestamp : LogicalTime
  payload : EventPayload
  payload_hash : Hash
  state_hash_before : Option Hash
  state_hash_after : Option Hash
deriving DecidableEq, Repr, Inhabited

namespace Event

/-- Rust `Event::new`: no parent, no state hashes, payload hash computed
from the payload. -/
def new (id : EventId) (kind : EventKind) (timestamp : LogicalTime)
    (payload : EventPayload) : Event :=
  ⟨id, none, kind, timestamp, payload, payload.hash, none, none⟩

/-- Rust `Event::with_parent`. -/
def with_parent (id parent : EventId) (kind : EventKind) (timestamp : LogicalTime)
    (payload : EventPayload) : Event :=
  ⟨id, some parent, kind, timestamp, payload, payload.hash, none, none⟩

/-- serde image of an `Event` (struct fields in declaration order). -/
def toJson (e : Event) : Json :=
  .obj [("id", e.id.toJson),
        ("parent_id", optionToJson EventId.toJson e.parent_id),
        ("kind", e.kind.toJson),
        ("timestamp", e.timestamp.toJson),
        ("payload", e.payload.toJson),
        ("payload_hash", .str e.payload_hash.toHex),
        ("state_hash_before", optionToJson (fun h => .str h.toHex) e.state_hash_before),
        ("state_hash_after", optionToJson (fun h => .str h.toHex) e.state_hash_after)]

/-- Rust `Event::event_hash` — `Hash::from_canonical(self)` over the whole
event. -/
def event_hash (e : Event) : Hash := Hash.fromCanonicalJson e.toJson

/-- Rust `Event::verify_payload_hash`. -/
def verify_payload_hash (e : Event) : Bool := e.payload_hash == e.payload.hash

end Event

/-- Rust `EventLogError` (`error.rs`). -/
inductive EventLogError
  | InvalidEventId (s : String)
  | ParentNotFound (s : String)
  | HashMismatch (expected actual : String)
  | CorruptedLog (msg : String)
deriving DecidableEq, Repr

/-- Rust `EventLog` (`event.rs`): events of one run plus an id → index
lookup (`BTreeMap<EventId, usize>`). -/
structure EventLog where
  run_id : Nat
  events : List Event
  index : List (EventId × Nat)
deriving DecidableEq, Repr, Inhabited

namespace EventLog

/-- Rust `EventLog::new`. -/
def new (run_id : Nat) : EventLog := ⟨run_id, [], []⟩

/-- Rust `EventLog::append`, embedded with explicit state passing: the
returned log is the receiver after the call.  Every error is returned
before any mutation, exactly as in the source, where each check is an
early `return` ahead of the `push`/`insert`. -/
def append (log : EventLog) (event : Event) : Except EventLogError Unit × EventLog :=
  if event.id.run_id ≠ log.run_id then
    (.error (.CorruptedLog ("Event run_id mismatch: expected " ++ toString log.run_id ++
      ", got " ++ toString event.id.run_id)), log)
  else if event.id.sequence ≠ log.events.length then
    (.error (.CorruptedLog ("Event sequence mismatch: expected " ++
      toString log.events.length ++ ", got " ++ toString event.id.sequence)), log)
  else
    let checkHashAndPush : Unit → Except EventLogError Unit × EventLog := fun _ =>
      if ¬ event.verify_payload_hash then
        (.error (.HashMismatch event.payload_hash.toHex (event.payload.hash).toHex), log)
      else
        (.ok (), { log with
          index := assocInsert EventId.ltB event.id log.events.length log.index
          events := log.events ++ [event] })
    match event.parent_id with
    | some parent =>
      if ¬ assocContains parent log.index then
        (.error (.ParentNotFound (EventId.toString parent)), log)
      else checkHashAndPush ()
    | none => checkHashAndPush ()

/-- Rust `EventLog::get`. -/
def get (log : EventLog) (id : EventId) : Option Event :=
  (assocGet? id log.index).bind (fun idx => log.events.get? idx)

/-- Rust `EventLog::get_by_sequence`. -/
def get_by_sequence (log : EventLog) (seq : Nat) : Option Event :=
  log.events.get? seq

/-- Rust `EventLog::last`. -/
def last (log : EventLog) : Option Event := log.events.getLast?

/-- Rust `EventLog::len`. -/
def len (log : EventLog) : Nat := log.events.length

/-- Rust `EventLog::is_empty`. -/
def is_empty (log : EventLog) : Bool := log.events.isEmpty

end EventLog

/-! ## Replay engine (`oracle_omen_core/src/replay.rs`) -/

/-- Rust `ReplayError` (`replay.rs`). -/
inductive ReplayError
  | LogError (s : String)
  | CorruptedState (s : String)
  | Divergence (s : String)
deriving DecidableEq, Repr

/-- Rust `ReplayEngine` (`replay.rs`): log, current state, position. -/
structure ReplayEngine where
  log : EventLog
  current_state : AgentState
  position : Nat
deriving DecidableEq, Repr, Inhabited

namespace ReplayEngine

/-- Rust `ReplayEngine::new` — start from `AgentState::initial`. -/
def new (log : EventLog) : ReplayEngine := ⟨log, AgentState.initial, 0⟩

/-- Rust `ReplayEngine::with_state`. -/
def with_state (log : EventLog) (initial_state : AgentState) : ReplayEngine :=
  ⟨log, initial_state, 0⟩

/-- Rust `ReplayEngine::apply_event`: for a `StateTransition` payload,
reconcile on a `state_hash_before` mismatch and then record the
`state_hash_after` in the `_event_hash` domain; for every other
payload, record the full event hash under `event_<sequence>`. -/
def apply_event (e : ReplayEngine) (event : Event) : ReplayEngine :=
  match event.payload with
  | .StateTransition _ =>
    let st :=
      match event.state_hash_before with
      | some before_hash =>
        if e.current_state.hash ≠ before_hash then AgentState.with_run_id event.id.run_id
        else e.current_state
      | none => e.current_state
    match event.state_hash_after with
    | some after_hash =>
      { e with current_state := st.set "_event_hash" (.Value (.Hash after_hash)) }
    | none => { e with current_state := st }
  | _ =>
    let key := "event_" ++ toString event.id.sequence
    { e with current_state := e.current_state.set key (.Value (.Hash event.event_hash)) }

/-- Rust `ReplayEngine::step`: read the event at the current position, apply
it, advance; `none` at the end of the log. -/
def step (e : ReplayEngine) : Option Event × ReplayEngine :=
  match e.log.get_by_sequence e.position with
  | none => (none, e)
  | some event => (some event, { e.apply_event event with position := e.position + 1 })

/-- The `while self.step().is_some()` loop of `replay_all`, run with
explicit fuel.  Each productive `step` advances `position` by one and
the log is never modified, so `log.len` steps of fuel always reach the
end; `replay_all` passes exactly that. -/
def runSteps : Nat → ReplayEngine → ReplayEngine
  | 0, e => e
  | n + 1, e =>
    match e.step with
    | (none, e') => e'
    | (some _, e') => runSteps n e'

/-- Rust `ReplayEngine::replay_all`: drive `step` to the end of the log and
return the reconstructed state (always `Ok`). -/
def replay_all (e : ReplayEngine) : Except ReplayError AgentState × ReplayEngine :=
  let e' := runSteps e.log.len e
  (.ok e'.current_state, e')

/-- Rust `ReplayEngine::current_state`. -/
def currentState (e : ReplayEngine) : AgentState := e.current_state

/-- Rust `ReplayEngine::is_complete`. -/
def is_complete (e : ReplayEngine) : Bool := e.position ≥ e.log.len

end ReplayEngine

/-! ## Planning DAG (`oracle_omen_plan/src/dag.rs`, `dsl.rs`) -/

/-- Rust `ResourceAnnotation` (`dsl.rs`). -/
structure ResourceAnnotation where
  max_memory_bytes : Option Nat
  timeout_ms : Nat
  cpu_units : Option Nat
  exclusive : Bool
deriving DecidableEq, Repr

/-- Rust `Default for ResourceAnnotation`. -/
def defaultResources : ResourceAnnotation := ⟨none, 30000, none, false⟩

/-- Rust `FailurePolicy` (`dsl.rs`); the default is `Stop`. -/
inductive FailurePolicy
  | Stop
  | Continue
  | Retry
  | Compensate (compensation_step : RustString)
  | Fallback (fallback_step : RustString)
deriving DecidableEq, Repr

/-- Rust `BackoffStrategy` (`dsl.rs`). -/
inductive BackoffStrategy
  | Fixed (delay_ms : Nat)
  | Exponential (base_ms max_ms : Nat)
  | Linear (increment_ms : Nat)
  | None
deriving DecidableEq, Repr

/-- Rust `RetryPolicy` (`dsl.rs`). -/
structure RetryPolicy where
  max_retries : Nat
  backoff : BackoffStrategy
  retry_on : List String
deriving DecidableEq, Repr

/-- Rust `Default for RetryPolicy`. -/
def defaultRetry : RetryPolicy := ⟨3, .Exponential 100 5000, []⟩

/-- Rust `TimeoutAction` (`dsl.rs`). -/
inductive TimeoutAction
  | Error
  | Default (value : Json)
  | Skip

/-- Rust `TimeoutPolicy` (`dsl.rs`); the default is 30 s with `Error`. -/
structure TimeoutPolicy where
  timeout_ms : Nat
  on_timeout : TimeoutAction

/-- Rust `Default for TimeoutPolicy`. -/
def defaultTimeout : TimeoutPolicy := ⟨30000, .Error⟩

/-- Rust `DagNodeType` (`dag.rs`). -/
inductive DagNodeType
  | Tool (name version : RustString)
  | Observation (source : RustString)
  | Decision (condition : RustString)
  | Wait (duration_ms : Nat)
  | Custom (type_name : RustString) (config : Json)

/-- Rust `DagNode` (`dag.rs`). -/
structure DagNode where
  id : String
  node_type : DagNodeType
  capabilities : List String
  resources : ResourceAnnotation
  failure_policy : FailurePolicy
  retry_policy : RetryPolicy
  timeout_policy : TimeoutPolicy
  metadata : List (String × String)

/-- Rust `DagNode::new` — defaults everywhere but id and type. -/
def DagNode.new (id : String) (node_type : DagNodeType) : DagNode :=
  ⟨id, node_type, [], defaultResources, .Stop, defaultRetry, defaultTimeout, []⟩

/-- Rust `DagError` (`dag.rs`).  `CycleDetected`'s fields are `from`/`to` in
the source; `from` is reserved in Lean. -/
inductive DagError
  | DuplicateNode (id : String)
  | NodeNotFound (id : String)
  | DependencyNotFound (node dependency : String)
  | CycleDetected (from_ to_ : String)
  | InvalidStructure (msg : String)
deriving DecidableEq, Repr

/-- Rust `Display for DagError` (used by the scheduler's `map_err`). -/
def DagError.display : DagError → String
  | .DuplicateNode id => "Duplicate node: " ++ id
  | .NodeNotFound id => "Node not found: " ++ id
  | .DependencyNotFound node dependency =>
    "Dependency '" ++ dependency ++ "' of node '" ++ node ++ "' not found"
  | .CycleDetected from_ to_ =>
    "Cycle detected: edge " ++ from_ ++ " -> " ++ to_ ++ " would create cycle"
  | .InvalidStructure msg => "Invalid DAG structure: " ++ msg

/-- Rust `Dag` (`dag.rs`): nodes plus the `edges` map and its reverse, both
`BTreeMap<String, BTreeSet<String>>`. -/
structure Dag where
  name : String
  nodes : List (String × DagNode)
  edges : List (String × List String)
  reverse_edges : List (String × List String)

namespace Dag

/-- Rust `Dag::new`. -/
def new (name : String) : Dag := ⟨name, [], [], []⟩

/-- Rust `Dag::add_node`: refuse duplicates, seed empty edge sets. -/
def add_node (dag : Dag) (node : DagNode) : Except DagError Dag :=
  if assocContains node.id dag.nodes then .error (.DuplicateNode node.id)
  else .ok { dag with
    nodes := assocInsert strLt node.id node dag.nodes
    edges := assocInsert strLt node.id [] dag.edges
    reverse_edges := assocInsert strLt node.id [] dag.reverse_edges }

/-- The `for dep in deps { if has_path(dep, end) { return true } }`
loop of `Dag::has_path`, threading the visited set through a search
function `f`. -/
def searchDeps (f : String → List String → Bool × List String) :
    List String → List String → Bool × List String
  | [], visited => (false, visited)
  | dep :: rest, visited =>
    match f dep visited with
    | (true, visited') => (true, visited')
    | (false, visited') => searchDeps f rest visited'

/-- The DFS of `Dag::has_path`, which looks for a path from `start` to
`target` along `edges` while collecting a visited set.  The Rust
recursion terminates because every level inserts a fresh node id into
`visited`; the embedding recurses on fuel for the same bound
(`has_path` passes `nodes.length + 1`, which the search can never
exhaust), so both compute the same answer on every DAG. -/
def hasPathAux (dag : Dag) : Nat → String → String → List String → Bool × List String
  | 0, _, _, visited => (false, visited)
  | fuel + 1, start, target, visited =>
    if start = target then (true, visited)
    else if visited.contains start then (false, visited)
    else
      searchDeps (fun dep v => hasPathAux dag fuel dep target v)
        ((assocGet? start dag.edges).getD []) (start :: visited)

/-- Rust `Dag::has_path` from a fresh visited set. -/
def has_path (dag : Dag) (start target : String) : Bool :=
  (hasPathAux dag (dag.nodes.length + 1) start target []).1

/-- Rust `Dag::would_create_cycle`: a path `to ⇝ from` already exists. -/
def would_create_cycle (dag : Dag) (from_ to_ : String) : Bool :=
  dag.has_path to_ from_

/-- Rust `Dag::add_edge`: both endpoints must exist, the edge must not close
a cycle; then insert into `edges[from]` and `reverse_edges[to]`. -/
def add_edge (dag : Dag) (from_ to_ : String) : Except DagError Dag :=
  if ¬ assocContains from_ dag.nodes then .error (.NodeNotFound from_)
  else if ¬ assocContains to_ dag.nodes then .error (.NodeNotFound to_)
  else if dag.would_create_cycle from_ to_ then .error (.CycleDetected from_ to_)
  else .ok { dag with
    edges := assocInsert strLt from_
      (strSetInsert to_ ((assocGet? from_ dag.edges).getD [])) dag.edges
    reverse_edges := assocInsert strLt to_
      (strSetInsert from_ ((assocGet? to_ dag.reverse_edges).getD [])) dag.reverse_edges }

/-- Rust `*in_degree.entry(dep).or_insert(0) += 1`. -/
def bumpDegree (m : List (String × Nat)) (k : String) : List (String × Nat) :=
  assocInsert strLt k ((assocGet? k m).getD 0 + 1) m

/-- Ordered insertion keeping duplicates, mirroring one step of
`Vec::sort`. -/
def strInsertAsc (x : String) : List String → List String
  | [] => [x]
  | y :: ys => if strLt x y || x == y then x :: y :: ys else y :: strInsertAsc x ys

/-- Rust `Vec<String>::sort` (ascending; all elements here are distinct). -/
def sortStrings (l : List String) : List String :=
  l.foldr (fun x acc => strInsertAsc x acc) []

/-- The `while let Some(node) = queue.pop()` loop of
`topological_order`.  `Vec::pop` takes the *last* (lexicographically
greatest) element of the sorted queue.  After popping a node the source
walks `reverse_edges[node]` — the node's *predecessors* — decrementing
their counters (`usize` subtraction; no use below ever drives a counter
past zero).  Fuel makes the loop total; `topological_order` passes
`nodes + total reverse edges + 1`, which the uses below never
exhaust. -/
def topoLoop (dag : Dag) :
    Nat → List String → List (String × Nat) → List String → List String
  | 0, _, _, result => result
  | fuel + 1, queue, in_degree, result =>
    match queue.getLast? with
    | none => result
    | some node =>
      let queue := queue.dropLast
      let result := result ++ [node]
      match assocGet? node dag.reverse_edges with
      | none => topoLoop dag fuel queue in_degree result
      | some deps =>
        let step := deps.foldl
          (fun (p : List (String × Nat) × List String) dependent =>
            match assocGet? dependent p.1 with
            | none => p
            | some degree =>
              let d := degree - 1
              (assocInsert strLt dependent d p.1,
               if d = 0 then p.2 ++ [dependent] else p.2))
          (in_degree, queue)
        topoLoop dag fuel (sortStrings step.2) step.1 result

/-- Rust `Dag::topological_order` (`dag.rs`): seed counters from `edges`,
start from the zero-counter nodes, run the loop, and fail
`CycleDetected{from:"unknown", to:"unknown"}` when not every node was
output. -/
def topological_order (dag : Dag) : Except DagError (List String) :=
  let in_degree0 : List (String × Nat) := dag.nodes.map (fun kv => (kv.1, 0))
  let in_degree := dag.edges.foldl (fun m kv => kv.2.foldl bumpDegree m) in_degree0
  let queue := sortStrings ((in_degree.filter (fun kv => kv.2 = 0)).map (fun kv => kv.1))
  let fuel := dag.nodes.length + dag.reverse_edges.foldl (fun a kv => a + kv.2.length) 0 + 1
  let result := topoLoop dag fuel queue in_degree []
  if result.length ≠ dag.nodes.length then
    .error (.CycleDetected "unknown" "unknown")
  else
    .ok result

/-- Rust `Dag::dependencies` as the scheduler consumes it: the raw `edges`
lookup. -/
def dependencies (dag : Dag) (id : String) : Option (List String) :=
  assocGet? id dag.edges

/-- Rust `Dag::len`. -/
def len (dag : Dag) : Nat := dag.nodes.length

end Dag

/-! ## Scheduler (`oracle_omen_runtime/src/scheduler.rs`) -/

/-- Rust `ExecError` (`executor.rs`). -/
inductive ExecError
  | CapabilityDenied (capability reason : String)
  | ToolNotFound (s : String)
  | Timeout (node : String) (duration_ms : Nat)
  | Failed (node reason : String)
  | ResourceExceeded (node limit : String)
  | InvalidState (msg : String)
deriving DecidableEq, Repr

/-- Rust `RunningTask` (`scheduler.rs`). -/
structure RunningTask where
  node_id : String
  start_time : Nat
deriving DecidableEq, Repr

/-- Rust `Scheduler` (`scheduler.rs`).  `ready` is a `VecDeque` (head =
front); `pending` and `running` are `HashMap`s, embedded as association
lists in insertion order (`HashMap` iteration order is arbitrary in
Rust; every property proved below is insensitive to it). -/
structure Scheduler where
  ready : List String
  pending : List (String × List String)
  running : List (String × RunningTask)
  max_concurrent : Nat

namespace Scheduler

/-- Rust `Scheduler::new`. -/
def new (max_concurrent : Nat) : Scheduler := ⟨[], [], [], max_concurrent⟩

/-- Rust `HashMap::insert` on an insertion-ordered association list. -/
def hashInsert {α : Type} (k : String) (v : α) (m : List (String × α)) : List (String × α) :=
  if assocContains k m then m.map (fun kv => if kv.1 = k then (k, v) else kv)
  else m ++ [(k, v)]

/-- Rust `Scheduler::initialize` (that word is reserved in Lean, hence
`init`): order the DAG topologically, then put each node with an empty
dependency set into `ready` and the rest into `pending` with their
dependency lists (the local `remaining_deps` counter map in the source
is dropped at the end of the function and has no effect). -/
def init (s : Scheduler) (dag : Dag) : Except ExecError Scheduler :=
  match dag.topological_order with
  | .error e => .error (.InvalidState e.display)
  | .ok order =>
    .ok (order.foldl
      (fun sch node_id =>
        match dag.dependencies node_id with
        | some dep_set =>
          if dep_set.isEmpty then { sch with ready := sch.ready ++ [node_id] }
          else { sch with pending := hashInsert node_id dep_set sch.pending }
        | none => { sch with ready := sch.ready ++ [node_id] })
      s)

/-- Rust `Scheduler::next`: yield the front of `ready` only while strictly
fewer than `max_concurrent` tasks are running. -/
def next (s : Scheduler) : Option String × Scheduler :=
  if s.running.length ≥ s.max_concurrent then (none, s)
  else
    match s.ready with
    | [] => (none, s)
    | x :: rest => (some x, { s with ready := rest })

/-- Rust `Scheduler::start`. -/
def start (s : Scheduler) (node_id : String) (task : RunningTask) : Scheduler :=
  { s with running := hashInsert node_id task s.running }

/-- Rust `Scheduler::complete`: drop the task from `running`; remove the
node from every pending dependency list; move the entries that became
empty to the back of `ready`. -/
def complete (s : Scheduler) (node_id : String) : Except ExecError Unit × Scheduler :=
  let running := s.running.filter (fun kv => kv.1 ≠ node_id)
  let newly := (s.pending.filter
    (fun kv => kv.2.contains node_id && (kv.2.erase node_id).isEmpty)).map (fun kv => kv.1)
  let pending := (s.pending.map (fun kv => (kv.1, kv.2.erase node_id))).filter
    (fun kv => ¬ newly.contains kv.1)
  (.ok (), { s with running := running, pending := pending, ready := s.ready ++ newly })

/-- Rust `Scheduler::is_complete`. -/
def is_complete (s : Scheduler) : Bool :=
  s.ready.isEmpty && s.running.isEmpty && s.pending.isEmpty

/-- Rust `Scheduler::running_count`. -/
def running_count (s : Scheduler) : Nat := s.running.length

/-- Rust `Scheduler::ready_count`. -/
def ready_count (s : Scheduler) : Nat := s.ready.length

end Scheduler

/-! ## Policy engine (`oracle_omen_policy`: `lang.rs`, `schema.rs`,
`engine.rs`) -/

/-- Rust `PolicyId` (`lang.rs`). -/
structure PolicyId where
  name : String
  version : String
deriving DecidableEq, Repr, Inhabited

/-- Rust `RuleKind` (`lang.rs`). -/
inductive RuleKind
  | Capability
  | Tool
  | Memory
  | Patch
  | Resource
  | Custom (s : RustString)
deriving DecidableEq, Repr, Inhabited

/-- Rust `CompareOp` (`lang.rs`). -/
inductive CompareOp
  | Equal
  | NotEqual
  | Greater
  | GreaterEqual
  | Less
  | LessEqual
deriving DecidableEq, Repr, Inhabited

/-- Rust `Value` (`lang.rs`): condition operand values (nested inductive, so
equality deciding is not derived; none of the proofs needs it). -/
inductive Value
  | String (s : RustString)
  | Integer (n : Int)
  | Boolean (b : RustBool)
  | List (vs : List Value)
deriving Inhabited, Repr

/-- Rust `LogLevel` (`lang.rs`). -/
inductive LogLevel
  | Debug
  | Info
  | Warn
  | Error
deriving DecidableEq, Repr, Inhabited

/-- Rust `Action` (`lang.rs`). -/
inductive Action
  | Allow
  | Deny (reason : RustString)
  | AllowModified (modifications : List (RustString × RustString))
  | RequireApproval (approver reason : RustString)
  | Log (level : LogLevel)
  | Custom (s : RustString)
deriving DecidableEq, Repr, Inhabited

/-- Rust `matches!(action, Action::Deny { .. })`. -/
def Action.isDeny : Action → Bool
  | .Deny _ => true
  | _ => false

/-- Rust `matches!(action, Action::Allow)`. -/
def Action.isAllow : Action → Bool
  | .Allow => true
  | _ => false

/-- Rust `CompiledCondition` (`schema.rs`) — nested inductive. -/
inductive CompiledCondition
  | True
  | False
  | And (cs : List CompiledCondition)
  | Or (cs : List CompiledCondition)
  | Not (c : CompiledCondition)
  | HasCapability (cap : RustString)
  | ToolEquals (tool : RustString)
  | Compare (field : RustString) (op : CompareOp) (value : Value)
  | Custom (s : RustString)
deriving Inhabited, Repr

/-- Rust `CompiledRule` (`schema.rs`). -/
structure CompiledRule where
  name : String
  kind : RuleKind
  condition : CompiledCondition
  action : Action
deriving Inhabited, Repr

/-- Rust `CompiledPolicy` (`schema.rs`). -/
structure CompiledPolicy where
  id : PolicyId
  rules : List CompiledRule
  metadata : List (String × String)
deriving Inhabited, Repr

/-- Rust `EvalContext` (`engine.rs`): capabilities (`BTreeSet<String>`),
optional tool / memory key / patch type subjects, and state values. -/
structure EvalContext where
  capabilities : List String
  tool : Option String
  memory_key : Option String
  patch_type : Option String
  state : List (String × Value)
deriving Inhabited, Repr

namespace EvalContext

/-- Rust `EvalContext::new`. -/
def new : EvalContext := ⟨[], none, none, none, []⟩

/-- Rust `EvalContext::has_capability`: exact membership, or some *granted*
entry ends in `*` and its prefix (everything before the `*`) starts the
requested capability. -/
def has_capability (ctx : EvalContext) (cap : String) : Bool :=
  ctx.capabilities.contains cap ||
    ctx.capabilities.any
      (fun c => endsWithStar c && startsWithStr cap (String.mk c.data.dropLast))

end EvalContext

/-- Rust `PolicyEngine::compare_values` (`engine.rs`): defined comparisons
only; every other combination is `false`. -/
def compare_values (left : Value) (op : CompareOp) (right : Value) : Bool :=
  match left, op, right with
  | .String a, .Equal, .String b => a == b
  | .String a, .NotEqual, .String b => a != b
  | .Integer a, .Equal, .Integer b => a == b
  | .Integer a, .NotEqual, .Integer b => a != b
  | .Integer a, .Greater, .Integer b => a > b
  | .Integer a, .GreaterEqual, .Integer b => a ≥ b
  | .Integer a, .Less, .Integer b => a < b
  | .Integer a, .LessEqual, .Integer b => a ≤ b
  | .Boolean a, .Equal, .Boolean b => a == b
  | _, _, _ => false

mutual

/-- Rust `PolicyEngine::evaluate_condition` (`engine.rs`).  `Custom`
conditions are unsupported and evaluate to `false`. -/
def evaluate_condition (ctx : EvalContext) : CompiledCondition → Bool
  | .True => true
  | .False => false
  | .And cs => evalAllConds ctx cs
  | .Or cs => evalAnyConds ctx cs
  | .Not c => ! evaluate_condition ctx c
  | .HasCapability cap => ctx.has_capability cap
  | .ToolEquals tool => ctx.tool == some tool
  | .Compare field op value =>
    match assocGet? field ctx.state with
    | some state_val => compare_values state_val op value
    | none => false
  | .Custom _ => false

/-- Rust `conds.iter().all(...)` with short-circuiting. -/
def evalAllConds (ctx : EvalContext) : List CompiledCondition → Bool
  | [] => true
  | c :: rest => evaluate_condition ctx c && evalAllConds ctx rest

/-- Rust `conds.iter().any(...)` with short-circuiting. -/
def evalAnyConds (ctx : EvalContext) : List CompiledCondition → Bool
  | [] => false
  | c :: rest => evaluate_condition ctx c || evalAnyConds ctx rest

end

/-- Rust `EvaluationResult` (`lang.rs`). -/
structure EvaluationResult where
  allowed : Bool
  action : Action
  matched_rules : List String
  reason : String
deriving DecidableEq, Repr, Inhabited

/-- Rust `EvaluationResult::denied`. -/
def EvaluationResult.denied (reason : String) : EvaluationResult :=
  ⟨false, .Deny reason, [], reason⟩

/-- Rust `PolicyEngine` (`engine.rs`). -/
structure PolicyEngine where
  policies : List CompiledPolicy
deriving Inhabited, Repr

namespace PolicyEngine

/-- Rust `PolicyEngine::new`. -/
def new : PolicyEngine := ⟨[]⟩

/-- Rust `PolicyEngine::add_policy`. -/
def add_policy (eng : PolicyEngine) (policy : CompiledPolicy) : PolicyEngine :=
  ⟨eng.policies ++ [policy]⟩

/-- Rust `PolicyEngine::resolve_results` (`engine.rs`): default deny when no
rule matched; otherwise the first matched `Deny` wins with its reason;
otherwise the first matched `Allow` wins; otherwise deny. -/
def resolve_results (results : List (PolicyId × CompiledRule)) (subject : String) :
    EvaluationResult :=
  if results.isEmpty then EvaluationResult.denied ("No policy allows: " ++ subject)
  else
    match results.find? (fun pr => pr.2.action.isDeny) with
    | some pr =>
      match pr.2.action with
      | .Deny reason => ⟨false, pr.2.action, [pr.2.name], reason⟩
      | _ => EvaluationResult.denied ("No allow rule for: " ++ subject)
    | none =>
      match results.find? (fun pr => pr.2.action.isAllow) with
      | some pr =>
        ⟨true, pr.2.action, [pr.2.name],
         "Allowed by policy " ++ pr.1.name ++ " rule " ++ pr.2.name⟩
      | none => EvaluationResult.denied ("No allow rule for: " ++ subject)

/-- The rule-collection loop shared by the `evaluate_*` entry points:
rules of the wanted kind whose condition holds in `ctx`, paired with
their policy id, in policy then rule order. -/
def collect (eng : PolicyEngine) (kind : RuleKind) (ctx : EvalContext) :
    List (PolicyId × CompiledRule) :=
  eng.policies.foldl
    (fun acc policy =>
      acc ++ (policy.rules.filter
        (fun rule => rule.kind == kind && evaluate_condition ctx rule.condition)).map
          (fun rule => (policy.id, rule)))
    []

/-- Rust `PolicyEngine::evaluate_tool` (`engine.rs`). -/
def evaluate_tool (eng : PolicyEngine) (tool : String) (context : EvalContext) :
    EvaluationResult :=
  let ctx := { context with tool := some tool }
  resolve_results (eng.collect .Tool ctx) ("tool: " ++ tool)

/-- Rust `PolicyEngine::evaluate_capability` (`engine.rs`).  A `Capability`
rule whose condition is literally `HasCapability(c)` matches by exact
string equality `c == cap`; any other condition is evaluated against
the *original* context (the clone with `cap` inserted is never read —
this mirrors the source faithfully). -/
def evaluate_capability (eng : PolicyEngine) (cap : String) (context : EvalContext) :
    EvaluationResult :=
  let results := eng.policies.foldl
    (fun acc policy =>
      acc ++ (policy.rules.filter
        (fun rule => rule.kind == RuleKind.Capability &&
          (match rule.condition with
           | .HasCapability rule_cap => rule_cap == cap
           | cond => evaluate_condition context cond))).map
          (fun rule => (policy.id, rule)))
    []
  resolve_results results ("capability: " ++ cap)

/-- Rust `PolicyEngine::evaluate_patch` (`engine.rs`). -/
def evaluate_patch (eng : PolicyEngine) (patch_type : String) (context : EvalContext) :
    EvaluationResult :=
  let ctx := { context with patch_type := some patch_type }
  resolve_results (eng.collect .Patch ctx) ("patch: " ++ patch_type)

end PolicyEngine

/-! ## Patch system (`oracle_omen_patches`: `patch.rs`, `store.rs`,
`apply.rs`) -/

/-- Rust `PatchId` (`patch.rs`). -/
structure PatchId where
  run_id : Nat
  sequence : Nat
  checksum : String
deriving DecidableEq, Repr, Inhabited

namespace PatchId

/-- Rust `PatchId::new` — empty checksum. -/
def new (run_id sequence : Nat) : PatchId := ⟨run_id, sequence, ""⟩

/-- Rust `PatchId::to_string` — `"run:seq"`. -/
def toStr (id : PatchId) : String :=
  Nat.repr id.run_id ++ ":" ++ Nat.repr id.sequence

/-- serde image of a `PatchId`. -/
def toJson (id : PatchId) : Json :=
  .obj [("run_id", .num id.run_id), ("sequence", .num id.sequence),
        ("checksum", .str id.checksum)]

end PatchId

/-- Rust `PatchType` (`patch.rs`). -/
inductive PatchType
  | Prompt
  | Policy
  | Routing
  | Config
  | Tools
  | MemorySchema
  | Planning
  | Custom (s : RustString)
deriving DecidableEq, Repr, Inhabited

/-- serde image of a `PatchType`. -/
def PatchType.toJson : PatchType → Json
  | .Prompt => .str "Prompt"
  | .Policy => .str "Policy"
  | .Routing => .str "Routing"
  | .Config => .str "Config"
  | .Tools => .str "Tools"
  | .MemorySchema => .str "MemorySchema"
  | .Planning => .str "Planning"
  | .Custom s => .obj [("Custom", .str s)]

/-- Rust `PatchTarget` (`patch.rs`). -/
inductive PatchTarget
  | SystemPrompt
  | Policy (s : RustString)
  | Route (s : RustString)
  | Config (s : RustString)
  | Tool (s : RustString)
  | MemorySchema (s : RustString)
  | Custom (s : RustString)
deriving DecidableEq, Repr, Inhabited

/-- serde image of a `PatchTarget`. -/
def PatchTarget.toJson : PatchTarget → Json
  | .SystemPrompt => .str "SystemPrompt"
  | .Policy s => .obj [("Policy", .str s)]
  | .Route s => .obj [("Route", .str s)]
  | .Config s => .obj [("Config", .str s)]
  | .Tool s => .obj [("Tool", .str s)]
  | .MemorySchema s => .obj [("MemorySchema", .str s)]
  | .Custom s => .obj [("Custom", .str s)]

/-- Rust `TestType` (`patch.rs`). -/
inductive TestType
  | Unit
  | Integration
  | Property
  | Determinism
  | Replay
  | Custom (s : RustString)
deriving DecidableEq, Repr, Inhabited

/-- serde image of a `TestType`. -/
def TestType.toJson : TestType → Json
  | .Unit => .str "Unit"
  | .Integration => .str "Integration"
  | .Property => .str "Property"
  | .Determinism => .str "Determinism"
  | .Replay => .str "Replay"
  | .Custom s => .obj [("Custom", .str s)]

/-- Rust `TestOutcome` (`patch.rs`). -/
inductive TestOutcome
  | Pass
  | Fail
  | Any
deriving DecidableEq, Repr, Inhabited

/-- serde image of a `TestOutcome`. -/
def TestOutcome.toJson : TestOutcome → Json
  | .Pass => .str "Pass"
  | .Fail => .str "Fail"
  | .Any => .str "Any"

/-- Rust `TestRequirement` (`patch.rs`). -/
structure TestRequirement where
  name : String
  test_type : TestType
  expected : TestOutcome
deriving DecidableEq, Repr, Inhabited

/-- serde image of a `TestRequirement`. -/
def TestRequirement.toJson (t : TestRequirement) : Json :=
  .obj [("name", .str t.name), ("test_type", t.test_type.toJson),
        ("expected", t.expected.toJson)]

/-- Rust `Patch` (`patch.rs`). -/
structure Patch where
  id : PatchId
  patch_type : PatchType
  target : PatchTarget
  data : List (String × String)
  reasoning : String
  tests : List TestRequirement
  created_at : Nat
  created_by : Nat
deriving DecidableEq, Repr, Inhabited

namespace Patch

/-- Rust `Patch::new` — empty data/tests, zero timestamps. -/
def new (id : PatchId) (patch_type : PatchType) (target : PatchTarget)
    (reasoning : String) : Patch :=
  ⟨id, patch_type, target, [], reasoning, [], 0, 0⟩

/-- Rust `Patch::with_data` — `BTreeMap::insert` into `data`. -/
def with_data (p : Patch) (key value : String) : Patch :=
  { p with data := assocInsert strLt key value p.data }

/-- serde image of a `Patch` (fields in declaration order). -/
def toJson (p : Patch) : Json :=
  .obj [("id", p.id.toJson), ("patch_type", p.patch_type.toJson),
        ("target", p.target.toJson), ("data", stringMapToJson p.data),
        ("reasoning", .str p.reasoning),
        ("tests", .arr (p.tests.map TestRequirement.toJson)),
        ("created_at", .num p.created_at), ("created_by", .num p.created_by)]

/-- Rust `Patch::hash` — `Hash::from_canonical(self)`. -/
def hash (p : Patch) : Hash := Hash.fromCanonicalJson p.toJson

end Patch

/-- Rust `PatchStatus` (`patch.rs`). -/
inductive PatchStatus
  | Proposed
  | Tested
  | Audited
  | Approved
  | Applied
  | Rejected (reason : RustString)
  | RolledBack (reason : RustString)
deriving DecidableEq, Repr, Inhabited

/-- Rust `StoreError` (`store.rs`). -/
inductive StoreError
  | AlreadyExists (s : String)
  | NotFound (s : String)
  | Corrupted (s : String)
deriving DecidableEq, Repr

/-- Rust `Display for StoreError`. -/
def StoreError.display : StoreError → String
  | .AlreadyExists id => "Already exists: " ++ id
  | .NotFound id => "Not found: " ++ id
  | .Corrupted msg => "Corrupted: " ++ msg

/-- Rust `PatchStore` (`store.rs`): `BTreeMap<String, (Patch, PatchStatus)>`. -/
structure PatchStore where
  patches : List (String × (Patch × PatchStatus))
deriving DecidableEq, Repr, Inhabited

namespace PatchStore

/-- Rust `PatchStore::new`. -/
def new : PatchStore := ⟨[]⟩

/-- Rust `PatchStore::add_patch` — refuse duplicates. -/
def add_patch (store : PatchStore) (id : String) (patch : Patch)
    (status : PatchStatus) : Except StoreError Unit × PatchStore :=
  if assocContains id store.patches then (.error (.AlreadyExists id), store)
  else (.ok (), ⟨assocInsert strLt id (patch, status) store.patches⟩)

/-- Rust `PatchStore::get_patch`. -/
def get_patch (store : PatchStore) (id : String) : Option (Patch × PatchStatus) :=
  assocGet? id store.patches

/-- Rust `PatchStore::update_status`: replace the stored status, keep the
patch (the assignment in the source only type-checks with the whole
`(Patch, PatchStatus)` entry as the assignee, which is what this
does). -/
def update_status (store : PatchStore) (id : String) (status : PatchStatus) :
    Except StoreError Unit × PatchStore :=
  match assocGet? id store.patches with
  | some (patch, _) =>
    (.ok (), ⟨assocInsert strLt id (patch, status) store.patches⟩)
  | none => (.error (.NotFound id), store)

end PatchStore

/-- Rust `ApplyError` (`apply.rs`). -/
inductive ApplyError
  | NotFound (s : String)
  | TestFailed (s : String)
  | AuditFailed (s : String)
  | NotApproved
  | ApplicationFailed (s : String)
  | RollbackFailed (s : String)
deriving DecidableEq, Repr

/-- Rust `ApplyResult` (`apply.rs`). -/
structure ApplyResult where
  patch_id : String
  changes_made : List String
  rollback_data : List (String × String)
deriving DecidableEq, Repr, Inhabited

/-- Rust `AppliedPatch` (`apply.rs`). -/
structure AppliedPatch where
  patch_id : String
  patch_hash : Hash
  applied_at : LogicalTime
  before_hash : Hash
  after_hash : Hash
  rollback_data : List (String × String)
deriving DecidableEq, Repr, Inhabited

/-- Rust `PatchEngine` (`apply.rs`): the store plus the
`BTreeMap<String, AppliedPatch>` record of applications. -/
structure PatchEngine where
  store : PatchStore
  applied : List (String × AppliedPatch)
deriving DecidableEq, Repr, Inhabited

namespace PatchEngine

/-- Rust `PatchEngine::new`. -/
def new (store : PatchStore) : PatchEngine := ⟨store, []⟩

/-- Rust `PatchEngine::submit` — add with status `Proposed`. -/
def submit (eng : PatchEngine) (patch : Patch) : Except ApplyError Unit × PatchEngine :=
  let (r, store) := eng.store.add_patch patch.id.toStr patch .Proposed
  match r with
  | .ok _ => (.ok (), { eng with store := store })
  | .error e => (.error (.ApplicationFailed ("Store error: " ++ e.display)),
                 { eng with store := store })

/-- Rust `PatchEngine::apply_patch` (`apply.rs`): dispatch on the target;
`SystemPrompt`, `Config(k)` and `Policy(n)` write the corresponding
state domain; any other target fails `ApplicationFailed`. -/
def apply_patch (patch : Patch) (state : AgentState) :
    Except ApplyError (ApplyResult × AgentState) :=
  match patch.target with
  | .SystemPrompt =>
    let state := state.set "system_prompt"
      (.Value (.String ((assocGet? "prompt" patch.data).getD "")))
    .ok (⟨patch.id.toStr, ["system_prompt"], []⟩, state)
  | .Config key =>
    let state :=
      match assocGet? "value" patch.data with
      | some value => state.set ("config." ++ key) (.Value (.String value))
      | none => state
    .ok (⟨patch.id.toStr, ["config." ++ key], []⟩, state)
  | .Policy name =>
    let state := state.set ("policy." ++ name)
      (.Value (.String ((assocGet? "policy" patch.data).getD "")))
    .ok (⟨patch.id.toStr, ["policy." ++ name], []⟩, state)
  | _ => .error (.ApplicationFailed "Target type not implemented")

/-- Rust `PatchEngine::apply` (`apply.rs`): look the patch up; statuses
other than `Approved` *or `Tested`* are refused with `NotApproved`;
then apply to the state, record an `AppliedPatch`, and mark the stored
status `Applied`.  State passing mirrors the `&mut` parameters: the
returned engine and state are the receiver and `current_state` after
the call. -/
def apply (eng : PatchEngine) (patch_id : String) (current_state : AgentState) :
    Except ApplyError ApplyResult × PatchEngine × AgentState :=
  match eng.store.get_patch patch_id with
  | none => (.error (.NotFound patch_id), eng, current_state)
  | some (patch, status) =>
    if ¬ (status = .Approved ∨ status = .Tested) then
      (.error .NotApproved, eng, current_state)
    else
      let before_hash := current_state.hash
      match apply_patch patch current_state with
      | .error e => (.error e, eng, current_state)
      | .ok (result, state') =>
        let after_hash := state'.hash
        let applied : AppliedPatch :=
          ⟨patch_id, patch.hash, ⟨0, eng.applied.length⟩,
           before_hash, after_hash, result.rollback_data⟩
        let (r, store') := eng.store.update_status patch_id .Applied
        match r with
        | .error e =>
          (.error (.ApplicationFailed e.display), { eng with store := store' }, state')
        | .ok _ =>
          (.ok result,
           { store := store'
             applied := assocInsert strLt patch_id applied eng.applied },
           state')

end PatchEngine

/-! ## Concrete scenario instances

Closed inputs used by the spec's end-to-end scenarios (S3, S4, S5) and
by the witnesses and counterexamples below. -/

/-- Keep the result of a fallible construction step, or the previous
value on error (every use below succeeds). -/
def orKeep {ε α : Type} (r : Except ε α) (d : α) : α := r.toOption.getD d

/-- S4's DAG: nodes `a`, `b`, `c` with edges `a→b`, `b→c`. -/
def dagABC : Dag :=
  let d := Dag.new "test"
  let d := orKeep (d.add_node (DagNode.new "a" (.Tool "tool1" "1.0.0"))) d
  let d := orKeep (d.add_node (DagNode.new "b" (.Tool "tool2" "1.0.0"))) d
  let d := orKeep (d.add_node (DagNode.new "c" (.Tool "tool3" "1.0.0"))) d
  let d := orKeep (d.add_edge "a" "b") d
  orKeep (d.add_edge "b" "c") d

/-- S5's DAG: five independent nodes `node0` … `node4`. -/
def dag5 : Dag :=
  [0, 1, 2, 3, 4].foldl
    (fun d i =>
      orKeep (d.add_node (DagNode.new ("node" ++ toString i)
        (.Tool ("tool" ++ toString i) "1.0.0"))) d)
    (Dag.new "test")

/-- S5's scheduler, concurrency cap 2, initialized with `dag5`. -/
def sched5 : Scheduler := orKeep ((Scheduler.new 2).init dag5) (Scheduler.new 2)

/-- S3's rule A: `Allow` on `HasCapability("fs:write")`. -/
def ruleS3Allow : CompiledRule :=
  ⟨"allow_write", .Capability, .HasCapability "fs:write", .Allow⟩

/-- S3's rule B: `Deny{reason:"R"}` on `True`. -/
def ruleS3Deny : CompiledRule := ⟨"deny_all", .Capability, .True, .Deny "R"⟩

/-- S3's policy holding rules A then B. -/
def policyS3 : CompiledPolicy := ⟨⟨"p", "1.0.0"⟩, [ruleS3Allow, ruleS3Deny], []⟩

/-- S3's engine. -/
def engineS3 : PolicyEngine := ⟨[policyS3]⟩

/-- S3's context, granting `fs:write`. -/
def ctxS3 : EvalContext := { EvalContext.new with capabilities := ["fs:write"] }

/-- The matched-rule list S3's evaluation produces. -/
def resultsS3 : List (PolicyId × CompiledRule) :=
  [(policyS3.id, ruleS3Allow), (policyS3.id, ruleS3Deny)]

/-- A context granting the literal capability `d:a:read`. -/
def ctxGrantRead : EvalContext := { EvalContext.new with capabilities := ["d:a:read"] }

/-- A context granting the wildcard entry `d:a:*`. -/
def ctxGrantStar : EvalContext := { EvalContext.new with capabilities := ["d:a:*"] }

/-- S6's patch: a `Prompt` patch targeting the system prompt. -/
def patchPrompt : Patch :=
  (Patch.new (PatchId.new 1 0) .Prompt .SystemPrompt "Update prompt").with_data
    "prompt" "You are a helpful assistant."

/-- A store holding `patchPrompt` with status `Tested`. -/
def storeTested : PatchStore := ⟨[("1:0", (patchPrompt, .Tested))]⟩

/-- A store holding `patchPrompt` with status `Proposed`. -/
def storeProposed : PatchStore := ⟨[("1:0", (patchPrompt, .Proposed))]⟩

/-- An empty-map `Raw` payload. -/
def payloadRaw : EventPayload := .Raw []

/-- A well-formed first event for run 42 (`payload_hash` computed from
the payload, as `Event::new` does). -/
def eventOk : Event := Event.new (EventId.new 42 0) (.Custom "raw") ⟨42, 0⟩ payloadRaw

/-- The same event with a foreign `run_id`. -/
def eventBadRun : Event := Event.new (EventId.new 7 0) (.Custom "raw") ⟨7, 0⟩ payloadRaw

/-- A string of 62 `'0'` characters preceded by `"+0"`: 64 bytes, contains the
non-hex character `'+'`. -/
def plusHexStr : String := "+0" ++ String.mk (List.replicate 62 '0')

/-- A euro sign followed by 61 `'0'`s: 64 UTF-8 bytes, but byte
offset 2 falls strictly inside the three-byte `'€'`, so the slice
`&hex[0..2]` panics in Rust. -/
def euroHexStr : String := "€" ++ String.mk (List.replicate 61 '0')

/-- Uppercase-variant relation on character lists: each position holds
the original character or its `Char.toUpper`. -/
def upperVariantB : List Char → List Char → Bool
  | [], [] => true
  | c :: cs, c' :: cs' => (c' == c || c' == c.toUpper) && upperVariantB cs cs'
  | _, _ => false

/-! # Theorems -/

set_option maxRecDepth 16000

/-- Claim C2. Replay is deterministic and pure: two `ReplayEngine`s
built with `ReplayEngine::new` from equal logs and driven by
`replay_all` return equal results, and the reconstructed final
`AgentState`s have equal state hashes.  (In this embedding `replay_all`
is a pure function of the engine, so determinism is congruence.) -/
theorem replay_all_deterministic (log1 log2 : EventLog) (h : log1 = log2) :
    (ReplayEngine.new log1).replay_all.1 = (ReplayEngine.new log2).replay_all.1 ∧
    ∀ s1 s2, (ReplayEngine.new log1).replay_all.1 = .ok s1 →
      (ReplayEngine.new log2).replay_all.1 = .ok s2 →
      s1 = s2 ∧ s1.state_hash = s2.state_hash := by
  subst h
  refine ⟨rfl, ?_⟩
  intro s1 s2 h1 h2
  rw [h1] at h2
  injection h2 with h3
  exact ⟨h3, by rw [h3]⟩

/-- Witness for C2 at the concrete empty log of run 42. -/
theorem replay_all_deterministic_witness :
    (ReplayEngine.new (EventLog.new 42)).replay_all.1 =
      (ReplayEngine.new (EventLog.new 42)).replay_all.1 ∧
    ∀ s1 s2, (ReplayEngine.new (EventLog.new 42)).replay_all.1 = .ok s1 →
      (ReplayEngine.new (EventLog.new 42)).replay_all.1 = .ok s2 →
      s1 = s2 ∧ s1.state_hash = s2.state_hash :=
  replay_all_deterministic (EventLog.new 42) (EventLog.new 42) rfl

/-- Claim C3 (code bug).  On the spec's S4 scenario — nodes `a`, `b`,
`c` with edges `a→b` and `b→c`, exactly the DAG that `dag.rs`'s own
`test_topological_order` builds and expects to order as
`["a","b","c"]` — `topological_order` instead reports
`CycleDetected{from:"unknown", to:"unknown"}`: after popping the
zero-counter node, the loop walks `reverse_edges[node]` (the node's
*predecessors*) instead of its successors, so no counter ever reaches
zero and the loop stalls after `"a"`. -/
theorem topological_order_stalls_on_chain :
    dagABC.nodes.map Prod.fst = ["a", "b", "c"] ∧
    dagABC.edges = [("a", ["b"]), ("b", ["c"]), ("c", [])] ∧
    dagABC.reverse_edges = [("a", []), ("b", ["a"]), ("c", ["b"])] ∧
    dagABC.topological_order = .error (.CycleDetected "unknown" "unknown") := by
  decide

/-- Claim C4 (code bug).  The S5 scenario exactly as
`test_scheduler_backpressure` in `scheduler.rs` runs it: five
independent nodes, cap 2, three bare `next()` calls with no `start()`.
The test asserts the third call returns `None`, but `next` consults
only the `running` map, which only `start` fills, so the third call
still returns `Some("node2")`.  (The last two conjuncts show the
claimed behaviour does hold once dispatched tasks are `start`ed, and
that `complete` frees a slot again.) -/
theorem scheduler_backpressure_without_start :
    ((Scheduler.new 2).init dag5).isOk = true ∧
    sched5.ready = ["node4", "node3", "node2", "node1", "node0"] ∧
    sched5.next.1 = some "node4" ∧
    sched5.next.2.next.1 = some "node3" ∧
    sched5.next.2.next.2.next.1 = some "node2" ∧
    ((sched5.next.2.start "node4" ⟨"node4", 0⟩).next.2.start "node3"
        ⟨"node3", 0⟩).next.1 = none ∧
    ((((sched5.next.2.start "node4" ⟨"node4", 0⟩).next.2.start "node3"
        ⟨"node3", 0⟩).complete "node4").2.next.1 = some "node2") := by
  decide

/-- Claim C6 (amended).  Every mutation recomputes the cached hash:
after `set` the state hash is the canonical hash of the data, the
domain is inserted and the version bumped; likewise after a `remove`
of a present key; a `remove` of an absent key leaves the state
untouched; and `with_run_id` also establishes the invariant.  (The
claim's inclusion of `AgentState::initial` is refuted separately: the
initial hash is the zero sentinel.) -/
theorem state_hash_recomputed_on_mutation :
    (∀ (s : AgentState) (domain : String) (d : StateData),
       (s.set domain d).state_hash = hashCanonicalStateMap (s.set domain d).data ∧
       (s.set domain d).data = assocInsert strLt domain d s.data ∧
       (s.set domain d).version = s.version + 1) ∧
    (∀ (s : AgentState) (domain : String) (v : StateData),
       assocGet? domain s.data = some v →
       (s.remove domain).1.state_hash = hashCanonicalStateMap (s.remove domain).1.data ∧
       (s.remove domain).1.version = s.version + 1) ∧
    (∀ (s : AgentState) (domain : String),
       assocGet? domain s.data = none → (s.remove domain).1 = s) ∧
    (∀ run_id : Nat, (AgentState.with_run_id run_id).state_hash =
       hashCanonicalStateMap (AgentState.with_run_id run_id).data) := by
  refine ⟨fun s dom d => ⟨rfl, rfl, rfl⟩, ?_, ?_, fun r => rfl⟩
  · intro s dom v h
    simp only [AgentState.remove, h]
    exact ⟨rfl, rfl⟩
  · intro s dom h
    simp only [AgentState.remove, h]

/-- Witness for C6: the `set` invariant at a concrete state, and the
no-op `remove` on the empty initial state. -/
theorem state_hash_recomputed_on_mutation_witness :
    ((AgentState.initial.set "x" (.Value (.U64 1))).state_hash =
      hashCanonicalStateMap (AgentState.initial.set "x" (.Value (.U64 1))).data) ∧
    (AgentState.initial.remove "x").1 = AgentState.initial :=
  ⟨(state_hash_recomputed_on_mutation.1 AgentState.initial "x" (.Value (.U64 1))).1,
   state_hash_recomputed_on_mutation.2.2.1 AgentState.initial "x" rfl⟩

/-- Counterexample for C6 as stated: the initial state carries the
all-zero sentinel hash, which is not the canonical (BLAKE3) hash of
its empty data map. -/
theorem initial_state_hash_not_canonical :
    AgentState.initial.state_hash ≠ hashCanonicalStateMap AgentState.initial.data := by
  decide

/-- Claim C8 (amended).  The wildcard lives in the *granted* set: when
the context's capability set contains an entry `c` ending in `*`, a
`HasCapability(cap)` condition holds for every `cap` that starts with
`c` minus the star. -/
theorem has_capability_wildcard_in_granted_set
    (ctx : EvalContext) (c cap : String)
    (hmem : c ∈ ctx.capabilities) (hstar : endsWithStar c = true)
    (hpre : startsWithStr cap (String.mk c.data.dropLast) = true) :
    evaluate_condition ctx (.HasCapability cap) = true := by
  have hcap : ctx.has_capability cap = true := by
    unfold EvalContext.has_capability
    refine Bool.or_eq_true_iff.mpr (Or.inr ?_)
    rw [List.any_eq_true]
    exact ⟨c, hmem, by rw [hstar, hpre]; rfl⟩
  simpa [evaluate_condition] using hcap

/-- Witness for C8 (amended): granted `d:a:*` satisfies
`HasCapability("d:a:read")`. -/
theorem has_capability_wildcard_witness :
    evaluate_condition ctxGrantStar (.HasCapability "d:a:read") = true :=
  has_capability_wildcard_in_granted_set ctxGrantStar "d:a:*" "d:a:read"
    (by decide) (by decide) (by decide)

/-- Counterexample for C8 as stated: a wildcard written in the
*condition* does not match.  `d:a:read` starts with `d:a:` and is
granted, yet `HasCapability("d:a:*")` evaluates to `false`. -/
theorem wildcard_condition_pattern_not_matched :
    startsWithStr "d:a:read" "d:a:" = true ∧
    "d:a:read" ∈ ctxGrantRead.capabilities ∧
    evaluate_condition ctxGrantRead (.HasCapability "d:a:*") = false := by
  decide

/-- Claim C5.  Deny precedence in `resolve_results`: whenever the
matched-rule list contains a `Deny` rule, the result is denied with
the reason of the *first* such rule, whatever else matched; and the
spec's S3 scenario end-to-end through `evaluate_capability` — a
matching `Allow` on `HasCapability("fs:write")` and a matching
`Deny{"R"}` on `True` in a context granting `fs:write` — yields
`allowed == false`, `reason == "R"`. -/
theorem first_deny_overrides_allow :
    (∀ (results : List (PolicyId × CompiledRule)) (subject : String)
       (pr : PolicyId × CompiledRule) (reason : String),
       results.find? (fun q => q.2.action.isDeny) = some pr →
       pr.2.action = .Deny reason →
       PolicyEngine.resolve_results results subject =
         ⟨false, pr.2.action, [pr.2.name], reason⟩) ∧
    engineS3.evaluate_capability "fs:write" ctxS3 =
      ⟨false, .Deny "R", ["deny_all"], "R"⟩ := by
  constructor
  · intro results subject pr reason hfind hact
    have hne : results.isEmpty = false := by
      cases results with
      | nil => simp [List.find?] at hfind
      | cons a l => rfl
    simp only [PolicyEngine.resolve_results, hne, Bool.false_eq_true, if_false, hfind, hact]
  · decide

/-- Witness for C5 at S3's matched-rule list. -/
theorem first_deny_overrides_allow_witness :
    PolicyEngine.resolve_results resultsS3 "capability: fs:write" =
      ⟨false, ruleS3Deny.action, [ruleS3Deny.name], "R"⟩ :=
  first_deny_overrides_allow.1 resultsS3 "capability: fs:write"
    (policyS3.id, ruleS3Deny) "R" rfl rfl

/-- Claim C7 (amended).  `PatchEngine::apply` gates on the stored
status, but accepts `Tested` *in addition to* `Approved`
(`matches!(status, Approved | Tested)`): every other status — in
particular `Proposed` — is refused with `NotApproved`, and a
successful apply implies the status was `Approved` or `Tested`. -/
theorem patch_apply_requires_approved_or_tested
    (eng : PatchEngine) (patch_id : String) (st : AgentState)
    (patch : Patch) (status : PatchStatus)
    (hfind : eng.store.get_patch patch_id = some (patch, status)) :
    ((status ≠ .Approved ∧ status ≠ .Tested) →
      (eng.apply patch_id st).1 = .error .NotApproved) ∧
    (∀ r, (eng.apply patch_id st).1 = .ok r →
      status = .Approved ∨ status = .Tested) := by
  constructor
  · intro hs
    unfold PatchEngine.apply
    rw [hfind]
    simp only []
    rw [if_pos (not_or.mpr hs)]
  · intro r hr
    by_cases hs : status = .Approved ∨ status = .Tested
    · exact hs
    · exfalso
      unfold PatchEngine.apply at hr
      rw [hfind] at hr
      simp only [] at hr
      rw [if_pos hs] at hr
      simp at hr

/-- Witness for C7 (amended): a `Proposed` patch is refused with
`NotApproved`. -/
theorem patch_apply_proposed_refused_witness :
    ((PatchEngine.new storeProposed).apply "1:0" AgentState.initial).1 =
      .error .NotApproved :=
  (patch_apply_requires_approved_or_tested (PatchEngine.new storeProposed) "1:0"
    AgentState.initial patchPrompt .Proposed rfl).1 ⟨by decide, by decide⟩

/-- Counterexample for C7 as stated: a patch whose stored status is
`Tested` (not `Approved`) applies successfully instead of returning
`NotApproved`. -/
theorem tested_patch_applies :
    (storeTested.get_patch "1:0").map Prod.snd = some .Tested ∧
    ((PatchEngine.new storeTested).apply "1:0" AgentState.initial).1.isOk = true ∧
    ((PatchEngine.new storeTested).apply "1:0" AgentState.initial).1 ≠
      .error .NotApproved := by
  decide

/-- Claim C9.  `EventLog::append` is atomic on failure: every error
return leaves the log exactly as it was — in the source all four
checks early-return before the `insert`/`push` pair mutates
anything. -/
theorem append_atomic_on_failure (log : EventLog) (event : Event)
    (err : EventLogError) (log' : EventLog)
    (h : log.append event = (.error err, log')) : log' = log := by
  simp only [EventLog.append] at h
  repeat' split at h
  all_goals injection h with h1 h2
  all_goals first
    | exact h2.symm
    | cases h1

/-- Witness for C9: a run-id-mismatch append leaves the fresh log of
run 42 unchanged. -/
theorem append_atomic_on_failure_witness :
    ((EventLog.new 42).append eventBadRun).2 = EventLog.new 42 :=
  append_atomic_on_failure (EventLog.new 42) eventBadRun
    (.CorruptedLog "Event run_id mismatch: expected 42, got 7")
    ((EventLog.new 42).append eventBadRun).2 (by decide)

/-- Claim C1.  The full contract of `EventLog::append`, check for check
and in the source's order: `CorruptedLog` on a foreign `run_id`;
`CorruptedLog` on a sequence other than the current length;
`ParentNotFound` on an unindexed parent; `HashMismatch` when the
stored payload hash is not the canonical hash of the payload; and
otherwise the event is pushed and its id indexed at its position. -/
theorem append_contract (log : EventLog) (event : Event) :
    (event.id.run_id ≠ log.run_id →
      ∃ msg, log.append event = (.error (.CorruptedLog msg), log)) ∧
    (event.id.run_id = log.run_id → event.id.sequence ≠ log.events.length →
      ∃ msg, log.append event = (.error (.CorruptedLog msg), log)) ∧
    (∀ p, event.id.run_id = log.run_id → event.id.sequence = log.events.length →
      event.parent_id = some p → assocContains p log.index = false →
      log.append event = (.error (.ParentNotFound (EventId.toString p)), log)) ∧
    (event.id.run_id = log.run_id → event.id.sequence = log.events.length →
      (∀ p, event.parent_id = some p → assocContains p log.index = true) →
      event.payload_hash ≠ event.payload.hash →
      log.append event =
        (.error (.HashMismatch event.payload_hash.toHex event.payload.hash.toHex), log)) ∧
    (event.id.run_id = log.run_id → event.id.sequence = log.events.length →
      (∀ p, event.parent_id = some p → assocContains p log.index = true) →
      event.payload_hash = event.payload.hash →
      log.append event = (.ok (), { log with
        index := assocInsert EventId.ltB event.id log.events.length log.index
        events := log.events ++ [event] })) := by
  refine ⟨?_, ?_, ?_, ?_, ?_⟩
  · intro h
    refine ⟨"Event run_id mismatch: expected " ++ toString log.run_id ++ ", got " ++
      toString event.id.run_id, ?_⟩
    simp only [EventLog.append, if_pos h]
  · intro h1 h2
    refine ⟨"Event sequence mismatch: expected " ++ toString log.events.length ++
      ", got " ++ toString event.id.sequence, ?_⟩
    simp only [EventLog.append, h1, ne_eq, not_true_eq_false, if_false, if_pos h2]
  · intro p h1 h2 hp hc
    simp only [EventLog.append, h1, h2, ne_eq, not_true_eq_false, if_false, hp]
    simp [hc]
  · intro h1 h2 hp hne
    simp only [EventLog.append, h1, h2, ne_eq, not_true_eq_false, if_false]
    have hv : event.verify_payload_hash = false := by
      simp [Event.verify_payload_hash, hne]
    cases hpar : event.parent_id with
    | none => simp [hv]
    | some p => simp [hv, hp p hpar]
  · intro h1 h2 hp heq
    simp only [EventLog.append, h1, h2, ne_eq, not_true_eq_false, if_false]
    have hv : event.verify_payload_hash = true := by
      simp [Event.verify_payload_hash, heq]
    cases hpar : event.parent_id with
    | none => simp [hv]
    | some p => simp [hv, hp p hpar]

/-- Witness for C1: the well-formed first event of run 42 appends and
is indexed at position 0. -/
theorem append_contract_witness :
    (EventLog.new 42).append eventOk = (.ok (), { EventLog.new 42 with
      index := assocInsert EventId.ltB eventOk.id (EventLog.new 42).events.length
        (EventLog.new 42).index
      events := (EventLog.new 42).events ++ [eventOk] }) :=
  (append_contract (EventLog.new 42) eventOk).2.2.2.2 rfl rfl
    (fun p hp => Option.noConfusion hp) rfl

/-! ### Hex parsing lemmas (for C10) -/

/-- A parsed hex digit value is below 16. -/
theorem toDigit16_lt (c d : Nat) (h : toDigit16 c = some d) : d < 16 := by
  unfold toDigit16 at h
  repeat' split at h
  all_goals first
    | (injection h with h'; omega)
    | cases h

/-- Facts about hex digit characters and their uppercase variants,
for every digit value: both parse back to the digit, neither is `'+'`
(byte 43), and both are ASCII. -/
theorem hexDigit_variant_facts :
    ∀ d < 16,
      toDigit16 (Hash.hexDigitChar d).toNat = some d ∧
      toDigit16 (Hash.hexDigitChar d).toUpper.toNat = some d ∧
      (Hash.hexDigitChar d).toNat ≠ 43 ∧
      (Hash.hexDigitChar d).toUpper.toNat ≠ 43 ∧
      (Hash.hexDigitChar d).toNat < 128 ∧
      (Hash.hexDigitChar d).toUpper.toNat < 128 := by
  decide

/-- Rust `parseDigits16` over exactly two digit bytes accumulates their
value (never above 255 for digits below 16). -/
theorem parseDigits16_two (a b da db : Nat) (ha : toDigit16 a = some da)
    (hb : toDigit16 b = some db) :
    parseDigits16 0 [a, b] = some (da * 16 + db) := by
  have hda := toDigit16_lt a da ha
  have hdb := toDigit16_lt b db hb
  unfold parseDigits16
  rw [ha]
  simp only
  rw [if_neg (by omega)]
  unfold parseDigits16
  rw [hb]
  simp only
  rw [if_neg (by omega)]
  unfold parseDigits16
  norm_num

/-- Rust `u8::from_str_radix` on a two-byte group whose first byte is not a
sign parses the two hex digits. -/
theorem u8FromStrRadix16_digits (a b da db : Nat) (ha : toDigit16 a = some da)
    (hb : toDigit16 b = some db) (hne : a ≠ 43) :
    u8FromStrRadix16 [a, b] = some (da * 16 + db) := by
  unfold u8FromStrRadix16
  split
  all_goals first
    | exact parseDigits16_two a b da db ha hb
    | simp_all

/-- The pair parse inverts the hex printing of a byte list, also
through per-character uppercasing. -/
theorem parseHexPairs_upperVariant (bs : List Nat) (cs : List Char) (i : Nat)
    (hlt : ∀ b ∈ bs, b < 256)
    (hvar : upperVariantB
      (bs.bind (fun b => [Hash.hexDigitChar (b / 16), Hash.hexDigitChar (b % 16)]))
      cs = true) :
    parseHexPairs (cs.map Char.toNat) i = .ok bs := by
  induction bs generalizing cs i with
  | nil =>
    cases cs with
    | nil => rfl
    | cons c cs' => simp [upperVariantB] at hvar
  | cons b rest ih =>
    have hb : b < 256 := hlt b (List.mem_cons_self b rest)
    have hhi : b / 16 < 16 := by omega
    have hlo : b % 16 < 16 := by omega
    cases cs with
    | nil => simp [upperVariantB] at hvar
    | cons c1 cs1 =>
      cases cs1 with
      | nil => simp [upperVariantB] at hvar
      | cons c2 cs2 =>
        have hbind : (b :: rest).bind
            (fun b => [Hash.hexDigitChar (b / 16), Hash.hexDigitChar (b % 16)]) =
            Hash.hexDigitChar (b / 16) :: Hash.hexDigitChar (b % 16) ::
              rest.bind (fun b =>
                [Hash.hexDigitChar (b / 16), Hash.hexDigitChar (b % 16)]) := rfl
        rw [hbind] at hvar
        simp only [upperVariantB, Bool.and_eq_true, Bool.or_eq_true, beq_iff_eq] at hvar
        obtain ⟨h1, h2, hrest⟩ := hvar
        have f1 := hexDigit_variant_facts (b / 16) hhi
        have f2 := hexDigit_variant_facts (b % 16) hlo
        have hc1 : toDigit16 c1.toNat = some (b / 16) ∧ c1.toNat ≠ 43 := by
          cases h1 with
          | inl h => rw [h]; exact ⟨f1.1, f1.2.2.1⟩
          | inr h => rw [h]; exact ⟨f1.2.1, f1.2.2.2.1⟩
        have hc2 : toDigit16 c2.toNat = some (b % 16) := by
          cases h2 with
          | inl h => rw [h]; exact f2.1
          | inr h => rw [h]; exact f2.2.1
        have hpair : u8FromStrRadix16 [c1.toNat, c2.toNat] = some b := by
          rw [u8FromStrRadix16_digits c1.toNat c2.toNat (b / 16) (b % 16)
            hc1.1 hc2 hc1.2]
          congr 1
          omega
        have hrec := ih cs2 (i + 2) (fun x hx => hlt x (List.mem_cons_of_mem b hx)) hrest
        simp only [List.map_cons, parseHexPairs, hpair, hrec, Except.map]

/-- A two-byte group containing a byte that is neither a hex digit nor
`'+'` fails `u8::from_str_radix`. -/
theorem u8FromStrRadix16_bad (a b : Nat)
    (h : (toDigit16 a = none ∧ a ≠ 43) ∨ toDigit16 b = none) :
    u8FromStrRadix16 [a, b] = none := by
  unfold u8FromStrRadix16
  split
  · simp_all
  · simp_all
  · rename_i heq
    injection heq with h1 h2
    subst h2
    rcases h with ⟨_, hne⟩ | hbad
    · exact absurd h1 hne
    · unfold parseDigits16
      rw [hbad]
  · rcases h with ⟨hbad, _⟩ | hbad
    · unfold parseDigits16
      rw [hbad]
    · unfold parseDigits16
      cases hda : toDigit16 a with
      | none => rfl
      | some da =>
        have := toDigit16_lt a da hda
        simp only
        rw [if_neg (by omega)]
        unfold parseDigits16
        rw [hbad]

/-- The pair parse fails on any byte list containing a byte that is
neither a hex digit nor `'+'`. -/
theorem parseHexPairs_err :
    ∀ (n : Nat) (bs : List Nat) (i : Nat), bs.length ≤ n →
      (∃ x ∈ bs, toDigit16 x = none ∧ x ≠ 43) →
      ∃ msg, parseHexPairs bs i = .error (.InvalidFormat msg) := by
  intro n
  induction n with
  | zero =>
    intro bs i hlen ⟨x, hx, _⟩
    cases bs with
    | nil => cases hx
    | cons a t => simp at hlen
  | succ n ih =>
    intro bs i hlen hex
    match bs with
    | [] => obtain ⟨x, hx, _⟩ := hex; cases hx
    | [a] => exact ⟨_, rfl⟩
    | a :: b :: rest =>
      obtain ⟨x, hx, hbad, hnp⟩ := hex
      rcases List.mem_cons.mp hx with hxa | hx1
      · subst hxa
        have hu := u8FromStrRadix16_bad x b (Or.inl ⟨hbad, hnp⟩)
        exact ⟨"Invalid hex at position " ++ toString i,
          by simp only [parseHexPairs, hu]⟩
      rcases List.mem_cons.mp hx1 with hxb | hxr
      · subst hxb
        have hu := u8FromStrRadix16_bad a x (Or.inr hbad)
        exact ⟨"Invalid hex at position " ++ toString i,
          by simp only [parseHexPairs, hu]⟩
      · cases hu : u8FromStrRadix16 [a, b] with
        | none => exact ⟨"Invalid hex at position " ++ toString i,
            by simp only [parseHexPairs, hu]⟩
        | some v =>
          have hlen2 : rest.length ≤ n := by simp at hlen; omega
          obtain ⟨msg, hmsg⟩ := ih rest (i + 2) hlen2 ⟨x, hxr, hbad, hnp⟩
          exact ⟨msg, by simp only [parseHexPairs, hu, hmsg, Except.map]⟩

/-- ASCII character lists UTF-8-encode to their code point bytes. -/
theorem utf8Bytes_ascii (cs : List Char) (h : ∀ c ∈ cs, c.toNat < 128) :
    cs.bind utf8EncodeCharNat = cs.map Char.toNat := by
  induction cs with
  | nil => rfl
  | cons c t ih =>
    have hc : c.toNat < 128 := h c (List.mem_cons_self c t)
    simp only [List.cons_bind, List.map_cons, utf8EncodeCharNat, if_pos hc,
      List.cons_append, List.nil_append]
    exact congrArg _ (ih (fun x hx => h x (List.mem_cons_of_mem c hx)))

/-- The hex rendering of 32 bytes is 64 characters long. -/
theorem toHex_data_length (h : Hash) (hlen : h.bytes.length = 32) :
    (Hash.toHex h).data.length = 64 := by
  have : ∀ bs : List Nat,
      (bs.bind (fun b => [Hash.hexDigitChar (b / 16), Hash.hexDigitChar (b % 16)])).length
        = 2 * bs.length := by
    intro bs
    induction bs with
    | nil => rfl
    | cons a t ih => simp [List.cons_bind, ih]; omega
  simp only [Hash.toHex]
  rw [this]
  omega

/-- The relation `upperVariantB` relates only equal-length lists. -/
theorem upperVariantB_length (xs ys : List Char) (h : upperVariantB xs ys = true) :
    ys.length = xs.length := by
  induction xs generalizing ys with
  | nil => cases ys with
    | nil => rfl
    | cons y t => simp [upperVariantB] at h
  | cons x t ih =>
    cases ys with
    | nil => simp [upperVariantB] at h
    | cons y u =>
      simp only [upperVariantB, Bool.and_eq_true] at h
      simp [ih u h.2]

/-- Every character of an uppercase variant of a hex rendering is
ASCII. -/
theorem upperVariant_ascii (bs : List Nat) (cs : List Char)
    (hvar : upperVariantB
      (bs.bind (fun b => [Hash.hexDigitChar (b / 16), Hash.hexDigitChar (b % 16)]))
      cs = true)
    (hlt : ∀ b ∈ bs, b < 256) :
    ∀ c ∈ cs, c.toNat < 128 := by
  induction bs generalizing cs with
  | nil =>
    cases cs with
    | nil => intro c hc; cases hc
    | cons c t => simp [upperVariantB] at hvar
  | cons b rest ih =>
    have hb : b < 256 := hlt b (List.mem_cons_self b rest)
    cases cs with
    | nil => intro c hc; cases hc
    | cons c1 cs1 =>
      cases cs1 with
      | nil => simp [List.cons_bind, upperVariantB] at hvar
      | cons c2 cs2 =>
        have hbind : (b :: rest).bind
            (fun b => [Hash.hexDigitChar (b / 16), Hash.hexDigitChar (b % 16)]) =
            Hash.hexDigitChar (b / 16) :: Hash.hexDigitChar (b % 16) ::
              rest.bind (fun b =>
                [Hash.hexDigitChar (b / 16), Hash.hexDigitChar (b % 16)]) := rfl
        rw [hbind] at hvar
        simp only [upperVariantB, Bool.and_eq_true, Bool.or_eq_true, beq_iff_eq] at hvar
        obtain ⟨h1, h2, hrest⟩ := hvar
        have f1 := hexDigit_variant_facts (b / 16) (by omega)
        have f2 := hexDigit_variant_facts (b % 16) (by omega)
        intro c hc
        rcases List.mem_cons.mp hc with hc1 | hc'
        · subst hc1
          cases h1 with
          | inl h => rw [h]; exact f1.2.2.2.2.1
          | inr h => rw [h]; exact f1.2.2.2.2.2
        rcases List.mem_cons.mp hc' with hc2 | hcr
        · subst hc2
          cases h2 with
          | inl h => rw [h]; exact f2.2.2.2.2.1
          | inr h => rw [h]; exact f2.2.2.2.2.2
        · exact ih cs2 hrest (fun x hx => hlt x (List.mem_cons_of_mem b hx)) c hcr

/-- Every position up to the length of an all-ASCII byte list is a
character boundary. -/
theorem isCharBoundary_ascii (bs : List Nat) (hascii : ∀ b ∈ bs, b < 128)
    (p : Nat) (hp : p ≤ bs.length) : isCharBoundary bs p = true := by
  unfold isCharBoundary
  by_cases h0 : p = 0
  · simp [h0]
  rw [if_neg h0]
  cases hg : bs.get? p with
  | none =>
    have hle : bs.length ≤ p := List.get?_eq_none.mp hg
    have hpe : p = bs.length := by omega
    simp [hpe]
  | some b =>
    have hb := hascii b (List.get?_mem hg)
    simp
    omega

/-- On an all-ASCII input every slice boundary is a character
boundary, so the slicing loop never panics and computes the plain pair
parse of the suffix from the current position. -/
theorem fromHexLoop_eq_parseHexPairs :
    ∀ (n i : Nat) (bs : List Nat), bs.length = 2 * i + 2 * n →
      (∀ b ∈ bs, b < 128) →
      Hash.fromHexLoop bs n i = .ok (parseHexPairs (bs.drop (2 * i)) (2 * i)) := by
  intro n
  induction n with
  | zero =>
    intro i bs hlen hascii
    have hdrop : bs.drop (2 * i) = [] := by
      rw [List.drop_eq_nil_iff]
      omega
    rw [hdrop]
    rfl
  | succ n ih =>
    intro i bs hlen hascii
    have hdl : (bs.drop (2 * i)).length = bs.length - 2 * i := List.length_drop _ _
    obtain ⟨a, b, rest, hd⟩ : ∃ a b rest, bs.drop (2 * i) = a :: b :: rest := by
      rcases hdd : bs.drop (2 * i) with _ | ⟨a, _ | ⟨b, rest⟩⟩
      · rw [hdd] at hdl; simp at hdl; omega
      · rw [hdd] at hdl; simp at hdl; omega
      · exact ⟨a, b, rest, rfl⟩
    have hrest : bs.drop (2 * i + 2) = rest := by
      have h2 : List.drop 2 (List.drop (2 * i) bs) = List.drop (2 * i + 2) bs :=
        List.drop_drop 2 (2 * i) bs
      rw [hd] at h2
      simp at h2
      exact h2.symm
    have htake : (bs.drop (2 * i)).take 2 = [a, b] := by rw [hd]; rfl
    have hb1 := isCharBoundary_ascii bs hascii (2 * i) (by omega)
    have hb2 := isCharBoundary_ascii bs hascii (2 * i + 2) (by omega)
    unfold Hash.fromHexLoop
    rw [if_pos (by rw [hb1, hb2]; rfl)]
    rw [htake, hd]
    cases hu : u8FromStrRadix16 [a, b] with
    | none => simp only [parseHexPairs, hu]
    | some v =>
      have hih := ih (i + 1) bs (by omega) hascii
      rw [show 2 * (i + 1) = 2 * i + 2 by ring] at hih
      rw [hrest] at hih
      simp only [parseHexPairs, hu, hih]
      cases hp : parseHexPairs rest (2 * i + 2) with
      | error e => simp [Except.map]
      | ok vs => simp [Except.map]

/-- Claim C10 (amended).  `Hash::from_hex` inverts `to_hex`
case-insensitively: any per-character uppercasing of `to_hex h` parses
back to `h`; any input whose UTF-8 byte length is not 64 fails with
`InvalidFormat`; and an *ASCII* input of length 64 containing a
character that is neither a hex digit nor `'+'` fails with
`InvalidFormat`.  Two exceptions to the original claim's non-hex
clause are forced by the code (see the counterexample): `'+'` is
accepted as a leading sign by `u8::from_str_radix`, and on a 64-byte
input where a slice offset falls inside a multi-byte character the
byte-indexed slice `&hex[i*2..i*2+2]` *panics* instead of returning
`Err` — hence the ASCII restriction here. -/
theorem from_hex_amended :
    (∀ (h : Hash) (s : String),
       h.bytes.length = 32 → (∀ b ∈ h.bytes, b < 256) →
       upperVariantB (Hash.toHex h).data s.data = true →
       Hash.fromHex s = .ok (.ok h)) ∧
    (∀ s : String, (utf8Bytes s).length ≠ 64 →
       ∃ msg, Hash.fromHex s = .ok (.error (.InvalidFormat msg))) ∧
    (∀ s : String, (utf8Bytes s).length = 64 →
       (∀ b ∈ utf8Bytes s, b < 128) →
       (∃ b ∈ utf8Bytes s, toDigit16 b = none ∧ b ≠ 43) →
       ∃ msg, Hash.fromHex s = .ok (.error (.InvalidFormat msg))) := by
  refine ⟨?_, ?_, ?_⟩
  · intro h s hlen hlt hvar
    have hascii : ∀ c ∈ s.data, c.toNat < 128 := upperVariant_ascii h.bytes s.data hvar hlt
    have hbytes : utf8Bytes s = s.data.map Char.toNat := utf8Bytes_ascii s.data hascii
    have hslen : s.data.length = 64 := by
      have := upperVariantB_length (Hash.toHex h).data s.data hvar
      rw [this]
      exact toHex_data_length h hlen
    have hblen : (utf8Bytes s).length = 64 := by
      rw [hbytes, List.length_map]
      exact hslen
    have hasciiB : ∀ b ∈ utf8Bytes s, b < 128 := by
      rw [hbytes]
      intro b hb
      obtain ⟨c, hc, hcb⟩ := List.mem_map.mp hb
      rw [← hcb]
      exact hascii c hc
    unfold Hash.fromHex
    rw [if_neg (by rw [hblen]; exact fun hc => hc rfl)]
    rw [fromHexLoop_eq_parseHexPairs 32 0 (utf8Bytes s) (by rw [hblen]) hasciiB]
    simp only [Nat.mul_zero, List.drop_zero]
    rw [hbytes, parseHexPairs_upperVariant h.bytes s.data 0 hlt hvar]
  · intro s hne
    unfold Hash.fromHex
    rw [if_pos hne]
    exact ⟨_, rfl⟩
  · intro s hlen hascii hex
    unfold Hash.fromHex
    rw [if_neg (by rw [hlen]; exact fun hc => hc rfl)]
    rw [fromHexLoop_eq_parseHexPairs 32 0 (utf8Bytes s) (by rw [hlen]) hascii]
    simp only [Nat.mul_zero, List.drop_zero]
    obtain ⟨msg, hmsg⟩ := parseHexPairs_err (utf8Bytes s).length (utf8Bytes s) 0
      (Nat.le_refl _) hex
    exact ⟨msg, by rw [hmsg]⟩

/-- Witness for C10 (amended): the zero hash round-trips, both through
its lowercase rendering and through full uppercasing (a no-op on
digits); and the two-character string `"zz"` fails on length. -/
theorem from_hex_amended_witness :
    Hash.fromHex (Hash.toHex Hash.zero) = .ok (.ok Hash.zero) ∧
    (∃ msg, Hash.fromHex "zz" = .ok (.error (.InvalidFormat msg))) :=
  ⟨from_hex_amended.1 Hash.zero (Hash.toHex Hash.zero) (by decide) (by decide) (by decide),
   from_hex_amended.2.1 "zz" (by decide)⟩

/-- Counterexample for C10 as stated ("any input containing a
non-hex-digit character returns Err(InvalidFormat)"), refuted in two
ways.  First, `"+0"` followed by 62 `'0'`s is 64 characters and
contains `'+'`, which is not a hex digit, yet `from_hex` accepts it
(returning the zero hash), because `u8::from_str_radix` consumes a
leading `'+'` as a sign.  Second, `'€'` followed by 61 `'0'`s is 64
UTF-8 bytes, but byte offset 2 falls inside the three-byte `'€'`, so
the slice `&hex[0..2]` panics — no `Err` is ever returned. -/
theorem from_hex_nonhex_not_always_error :
    (toDigit16 43 = none ∧ '+' ∈ plusHexStr.data ∧
      Hash.fromHex plusHexStr = .ok (.ok Hash.zero)) ∧
    ((utf8Bytes euroHexStr).length = 64 ∧
      Hash.fromHex euroHexStr = .panic "byte index is not a char boundary") := by
  decide

end OracleOmen
